import Mathlib

/-!
Verification development for the SkinIQ analysis relay.

The repository contains two alternate implementations of one Netlify
function: `netlify/functions/analyze.js` (fetch-based) and an unnamed
SDK-based variant.  Both are shallowly embedded below as pure Lean
functions over an explicit JSON value type; the process environment and
the upstream completion service are passed in as explicit inputs, and a
JavaScript exception escaping the handler is modelled as a distinguished
`thrown` outcome.
-/

set_option maxHeartbeats 1000000

namespace SkinIQ

/-- Whitespace recognized by the JS `String.prototype.trim` and the regex
class in the source.  ASCII whitespace plus NBSP; all strings appearing
in the claims are ASCII. -/
def jsWs (c : Char) : Bool :=
  c = ' ' || c = '\t' || c = '\n' || c = '\r' || c = '\x0b' || c = '\x0c' || c = ' '

def skipWs (l : List Char) : List Char := l.dropWhile jsWs

/-- JS `s.trim()` modelled on the character list: drop leading and
trailing whitespace. -/
def trimChars (l : List Char) : List Char :=
  ((l.dropWhile jsWs).reverse.dropWhile jsWs).reverse

def jsTrim (s : String) : String := ⟨trimChars s.data⟩

/-- JSON values as produced by `JSON.parse`.  Numbers keep the source
literal (the claims never depend on numeric re-formatting); object
fields are kept in JS insertion order. -/
inductive Json where
  | null
  | bool (b : Bool)
  | num (lit : String)
  | str (s : String)
  | arr (elems : List Json)
  | obj (fields : List (String × Json))

def hexDig (n : Nat) : Char := if n < 10 then Char.ofNat (48 + n) else Char.ofNat (87 + n)

/-- String-character escaping as performed by `JSON.stringify`. -/
def escChar (c : Char) : List Char :=
  if c = '"' then ['\\', '"']
  else if c = '\\' then ['\\', '\\']
  else if c = '\n' then ['\\', 'n']
  else if c = '\r' then ['\\', 'r']
  else if c = '\t' then ['\\', 't']
  else if c = '\x08' then ['\\', 'b']
  else if c = '\x0c' then ['\\', 'f']
  else if c.toNat < 0x20 then ['\\', 'u', '0', '0', hexDig (c.toNat / 16), hexDig (c.toNat % 16)]
  else [c]

def escString (s : String) : String := ⟨'"' :: (s.data.map escChar).flatten ++ ['"']⟩

mutual

/-- `JSON.stringify` with no spacing, as used by both handlers. -/
def stringify : Json → String
  | .null => "null"
  | .bool true => "true"
  | .bool false => "false"
  | .num lit => lit
  | .str s => escString s
  | .arr xs => "[" ++ stringifyElems xs ++ "]"
  | .obj fs => "\x7b" ++ stringifyFields fs ++ "\x7d"

def stringifyElems : List Json → String
  | [] => ""
  | [x] => stringify x
  | x :: y :: rest => stringify x ++ "," ++ stringifyElems (y :: rest)

def stringifyFields : List (String × Json) → String
  | [] => ""
  | [(k, v)] => escString k ++ ":" ++ stringify v
  | (k, v) :: f :: rest => escString k ++ ":" ++ stringify v ++ "," ++ stringifyFields (f :: rest)

end

/-- JS object assignment used when `JSON.parse` meets a duplicate key:
first occurrence keeps its position, the later value wins. -/
def insertField (fs : List (String × Json)) (k : String) (v : Json) : List (String × Json) :=
  match fs with
  | [] => [(k, v)]
  | (k0, v0) :: rest => if k0 = k then (k0, v) :: rest else (k0, v0) :: insertField rest k v

def lookupField (fs : List (String × Json)) (k : String) : Option Json :=
  match fs with
  | [] => none
  | (k0, v0) :: rest => if k0 = k then some v0 else lookupField rest k

def hexVal (c : Char) : Option Nat :=
  if '0' ≤ c ∧ c ≤ '9' then some (c.toNat - 48)
  else if 'a' ≤ c ∧ c ≤ 'f' then some (c.toNat - 87)
  else if 'A' ≤ c ∧ c ≤ 'F' then some (c.toNat - 55)
  else none

/-- Body of a JSON string literal (after the opening quote), per the
`JSON.parse` grammar.  Deviation: a `\u` escape denoting a lone
surrogate is rejected rather than kept as an unpaired UTF-16 unit. -/
def parseStringBody : Nat → List Char → Option (String × List Char)
  | 0, _ => none
  | _, [] => none
  | fuel + 1, c :: rest =>
    if c = '"' then some ("", rest)
    else if c = '\\' then
      match rest with
      | [] => none
      | e :: rest2 =>
        if e = 'u' then
          match rest2 with
          | h1 :: h2 :: h3 :: h4 :: rest3 =>
            match hexVal h1, hexVal h2, hexVal h3, hexVal h4 with
            | some a, some b, some c2, some d =>
              let n := ((a * 16 + b) * 16 + c2) * 16 + d
              if n.isValidChar then
                (parseStringBody fuel rest3).map (fun p => (⟨Char.ofNat n :: p.1.data⟩, p.2))
              else none
            | _, _, _, _ => none
          | _ => none
        else
          let dec : Option Char :=
            if e = '"' then some '"'
            else if e = '\\' then some '\\'
            else if e = '/' then some '/'
            else if e = 'b' then some '\x08'
            else if e = 'f' then some '\x0c'
            else if e = 'n' then some '\n'
            else if e = 'r' then some '\r'
            else if e = 't' then some '\t'
            else none
          match dec with
          | none => none
          | some ch => (parseStringBody fuel rest2).map (fun p => (⟨ch :: p.1.data⟩, p.2))
    else if c.toNat < 0x20 then none
    else (parseStringBody fuel rest).map (fun p => (⟨c :: p.1.data⟩, p.2))

/-- JSON number literal: `-?(0|[1-9][0-9]*)(.[0-9]+)?([eE][+-]?[0-9]+)?`.
Returns the consumed literal characters and the remainder. -/
def parseNumberLit (l : List Char) : Option (List Char × List Char) :=
  let (sign, l1) :=
    match l with
    | '-' :: rest => (['-'], rest)
    | _ => (([] : List Char), l)
  match l1 with
  | [] => none
  | c :: rest =>
    if c = '0' then
      let (frac, l2) := parseFrac rest
      let (ex, l3) := parseExp l2
      some (sign ++ ['0'] ++ frac ++ ex, l3)
    else if c.isDigit then
      let (ds, l2) := (c :: rest).span Char.isDigit
      let (frac, l3) := parseFrac l2
      let (ex, l4) := parseExp l3
      some (sign ++ ds ++ frac ++ ex, l4)
    else none
where
  parseFrac (l : List Char) : List Char × List Char :=
    match l with
    | '.' :: rest =>
      let (ds, l2) := rest.span Char.isDigit
      if ds = [] then ([], l) else ('.' :: ds, l2)
    | _ => ([], l)
  parseExp (l : List Char) : List Char × List Char :=
    match l with
    | c :: rest =>
      if c = 'e' ∨ c = 'E' then
        let (sgn, r2) :=
          match rest with
          | s :: r3 => if s = '+' ∨ s = '-' then ([s], r3) else (([] : List Char), rest)
          | [] => ([], rest)
        let (ds, r4) := r2.span Char.isDigit
        if ds = [] then ([], l) else (c :: sgn ++ ds, r4)
      else ([], l)
    | [] => ([], l)

mutual

/-- One JSON value (leading whitespace allowed), per the `JSON.parse`
grammar; fuel-driven recursion with fuel an upper bound on input length. -/
def parseVal : Nat → List Char → Option (Json × List Char)
  | 0, _ => none
  | fuel + 1, l =>
    match skipWs l with
    | [] => none
    | c :: rest =>
      if c = 'n' then
        if rest.take 3 = ['u', 'l', 'l'] then some (.null, rest.drop 3) else none
      else if c = 't' then
        if rest.take 3 = ['r', 'u', 'e'] then some (.bool true, rest.drop 3) else none
      else if c = 'f' then
        if rest.take 4 = ['a', 'l', 's', 'e'] then some (.bool false, rest.drop 4) else none
      else if c = '"' then
        (parseStringBody (fuel + 1) rest).map (fun p => (.str p.1, p.2))
      else if c = '[' then
        match skipWs rest with
        | ']' :: r2 => some (.arr [], r2)
        | r2 => (parseElems fuel r2).map (fun p => (.arr p.1, p.2))
      else if c = '\x7b' then
        match skipWs rest with
        | '\x7d' :: r2 => some (.obj [], r2)
        | r2 => (parseFields fuel [] r2).map (fun p => (.obj p.1, p.2))
      else if c = '-' ∨ c.isDigit then
        (parseNumberLit (c :: rest)).map (fun p => (.num ⟨p.1⟩, p.2))
      else none

/-- Array elements after `[` (first element's characters at the head). -/
def parseElems : Nat → List Char → Option (List Json × List Char)
  | 0, _ => none
  | fuel + 1, l =>
    match parseVal fuel l with
    | none => none
    | some (v, rest) =>
      match skipWs rest with
      | ',' :: r2 => (parseElems fuel r2).map (fun p => (v :: p.1, p.2))
      | ']' :: r2 => some ([v], r2)
      | _ => none

/-- Object members after `\x7b` (first key's characters at the head). -/
def parseFields : Nat → List (String × Json) → List Char → Option (List (String × Json) × List Char)
  | 0, _, _ => none
  | fuel + 1, acc, l =>
    match skipWs l with
    | '"' :: r1 =>
      match parseStringBody (fuel + 1) r1 with
      | none => none
      | some (k, r2) =>
        match skipWs r2 with
        | ':' :: r3 =>
          match parseVal fuel r3 with
          | none => none
          | some (v, r4) =>
            let acc2 := insertField acc k v
            match skipWs r4 with
            | ',' :: r5 => parseFields fuel acc2 r5
            | '\x7d' :: r5 => some (acc2, r5)
            | _ => none
        | _ => none
    | _ => none

end

/-- `JSON.parse` on a full document: one value, then only trailing
whitespace. -/
def parseChars (l : List Char) : Option Json :=
  match parseVal (l.length + 1) l with
  | some (j, rest) => if skipWs rest = [] then some j else none
  | none => none

def parseJson (s : String) : Option Json := parseChars s.data

/-- A JSON-value boundary: the remainder is empty or starts with a
separator that can legally follow a value inside a document. -/
def sepOk (rest : List Char) : Bool :=
  match rest with
  | [] => true
  | c :: _ => c = ',' || c = ']' || c = '\x7d'

/-- A number literal that `JSON.parse` accepts in full, reproducing
itself: the well-formedness invariant enjoyed by every literal the
parser stores in a `Json.num`. -/
def numLitOk (l : List Char) : Bool :=
  decide (parseNumberLit l = some (l, []))

mutual

/-- Every number literal stored in the value parses back to itself. -/
def numWfJson : Json → Bool
  | .null => true
  | .bool _ => true
  | .num lit => numLitOk lit.data
  | .str _ => true
  | .arr xs => numWfElems xs
  | .obj fs => numWfFields fs

def numWfElems : List Json → Bool
  | [] => true
  | x :: xs => numWfJson x && numWfElems xs

def numWfFields : List (String × Json) → Bool
  | [] => true
  | (_, v) :: fs => numWfJson v && numWfFields fs

end

/-- JS truthiness of a `JSON.parse` result: `null`, `false`, `""` and
numeric zero are falsy (a parsed number is zero iff its mantissa has no
nonzero digit). -/
def zeroLit (lit : String) : Bool :=
  let l := match lit.data with
    | '-' :: r => r
    | r => r
  (l.takeWhile (fun c => decide (c ≠ 'e') && decide (c ≠ 'E'))).all
    (fun c => c = '0' || c = '.')

def jsTruthy : Json → Bool
  | .null => false
  | .bool b => b
  | .num lit => ! zeroLit lit
  | .str s => ! s.isEmpty
  | .arr _ => true
  | .obj _ => true

/-- `const { k } = body` for a non-null parsed body: objects yield their
property, every other JSON value yields `undefined` (`none`) for the
keys used here, which are never built-ins of String or Array. -/
def destructure (body : Json) (k : String) : Option Json :=
  match body with
  | .obj fs => lookupField fs k
  | _ => none

/-- A JS expression value: a JSON value or `undefined`. -/
inductive JsVal where
  | undefined
  | val (j : Json)

def toVal : Option Json → JsVal
  | none => .undefined
  | some j => .val j

/-- JS property access `x.k`: throws on `undefined` and `null`, yields
the property of an object and `undefined` on other values (the keys
used here are not built-ins of the primitive wrappers). -/
def propAccess (v : JsVal) (k : String) : Except String JsVal :=
  match v with
  | .undefined => .error ("Cannot read properties of undefined (reading '" ++ k ++ "')")
  | .val .null => .error ("Cannot read properties of null (reading '" ++ k ++ "')")
  | .val (.obj fs) => .ok (toVal (lookupField fs k))
  | .val _ => .ok .undefined

/-- JS element access `x[0]`: throws on `undefined`/`null`; arrays yield
their head, objects their "0" property, strings their first character. -/
def indexZero (v : JsVal) : Except String JsVal :=
  match v with
  | .undefined => .error "Cannot read properties of undefined (reading '0')"
  | .val .null => .error "Cannot read properties of null (reading '0')"
  | .val (.arr xs) => .ok (toVal xs.head?)
  | .val (.obj fs) => .ok (toVal (lookupField fs "0"))
  | .val (.str s) =>
    .ok (match s.data with
      | [] => .undefined
      | c :: _ => .val (.str ⟨[c]⟩))
  | .val _ => .ok .undefined

/-- `data.content[0].text` followed by a string-method call named
`meth`: the extracted string, or the message of the TypeError the JS
engine throws along the way. -/
def replyText (data : Json) (meth : String) : Except String String :=
  match propAccess (.val data) "content" with
  | .error m => .error m
  | .ok v1 =>
    match indexZero v1 with
    | .error m => .error m
    | .ok v2 =>
      match propAccess v2 "text" with
      | .error m => .error m
      | .ok v3 =>
        match v3 with
        | .val (.str s) => .ok s
        | .undefined => .error ("Cannot read properties of undefined (reading '" ++ meth ++ "')")
        | .val .null => .error ("Cannot read properties of null (reading '" ++ meth ++ "')")
        | .val _ => .error (meth ++ " is not a function")

def fence3 : List Char := ['\x60', '\x60', '\x60']

/-- `text.replace(/^```(?:json)?\s*​/i, "")` from analyze.js: one leading
fence marker, an optional `json` tag, trailing whitespace. -/
def stripLeadFenceChars (l : List Char) : List Char :=
  if l.take 3 = fence3 then
    let r := l.drop 3
    let r2 := if (r.take 4).map Char.toLower = ['j', 's', 'o', 'n'] then r.drop 4 else r
    skipWs r2
  else l

/-- `text.replace(/\s*```$​/i, "")` from analyze.js: one trailing fence
marker with the whitespace before it. -/
def stripTrailFenceChars (l : List Char) : List Char :=
  let r := l.reverse
  if r.take 3 = fence3 then ((r.drop 3).dropWhile jsWs).reverse else l

def fenceJson : List Char := ['\x60', '\x60', '\x60', 'j', 's', 'o', 'n']

/-- One left-to-right scan of `rawText.replace(/```json\s*​/gi, "")` from
the SDK variant: every occurrence, case-insensitive, with the
whitespace that follows it.  Fuel-driven (the fuel is the length of the
list, and every step consumes at least one character). -/
def stripAllJsonFenceF : Nat → List Char → List Char
  | _, [] => []
  | 0, l => l
  | fuel + 1, c :: rest =>
    if ((c :: rest).take 7).map Char.toLower = fenceJson then
      stripAllJsonFenceF fuel (skipWs (rest.drop 6))
    else c :: stripAllJsonFenceF fuel rest

def stripAllJsonFence (l : List Char) : List Char := stripAllJsonFenceF l.length l

/-- One left-to-right scan of `…​.replace(/```\s*​/gi, "")` from the SDK
variant. -/
def stripAllFenceF : Nat → List Char → List Char
  | _, [] => []
  | 0, l => l
  | fuel + 1, c :: rest =>
    if (c :: rest).take 3 = fence3 then
      stripAllFenceF fuel (skipWs (rest.drop 2))
    else c :: stripAllFenceF fuel rest

def stripAllFence (l : List Char) : List Char := stripAllFenceF l.length l

/-- `cleaned.match(/\x7b[\s\S]*\x7d/)` from the SDK variant: greedy, so the
match (when any) runs from the first `\x7b` through the last `\x7d` after it. -/
def braceSpan (l : List Char) : Option (List Char) :=
  let l1 := l.dropWhile (fun c => decide (c ≠ '\x7b'))
  let l2 := (l1.reverse.dropWhile (fun c => decide (c ≠ '\x7d'))).reverse
  if l2.isEmpty then none else some l2

/-- JS string coercion of a parsed JSON value, as performed by a
template literal (array elements that are `null` join as empty;
number literals are kept as parsed). -/
def jsCoerceString : Json → String
  | .null => "null"
  | .bool true => "true"
  | .bool false => "false"
  | .num lit => lit
  | .str s => s
  | .obj _ => "[object Object]"
  | .arr xs => coerceElems xs
where
  coerceElems : List Json → String
    | [] => ""
    | [x] =>
      match x with
      | .null => ""
      | x => jsCoerceString x
    | x :: y :: rest =>
      (match x with
       | .null => ""
       | x => jsCoerceString x) ++ "," ++ coerceElems (y :: rest)

def analyzeSystemPrompt : String :=
  "You are an expert skincare chemist and ingredient safety analyst. Analyze skincare ingredients and return ONLY a valid JSON object with no extra text, markdown, or code blocks.\n\nReturn this exact JSON structure:\n\x7b\n  \"productName\": \"string or null\",\n  \"extractedIngredientText\": \"raw ingredient list as string\",\n  \"ingredients\": [\n    \x7b\n      \"name\": \"Common name\",\n      \"inci\": \"INCI/scientific name\",\n      \"safety\": \"safe|caution|flag\",\n      \"category\": [\"array\", \"of\", \"categories\"],\n      \"description\": \"Brief description of what this ingredient is and does\",\n      \"benefits\": [\"benefit 1\", \"benefit 2\"],\n      \"concerns\": [\"concern 1\", \"concern 2\"],\n      \"comedogenic\": 0,\n      \"pregnancySafe\": true,\n      \"bannedRegions\": [],\n      \"ewgScore\": 1\n    \x7d\n  ],\n  \"summary\": \x7b\n    \"overallSafety\": \"safe|caution|flag\",\n    \"safeCount\": 0,\n    \"cautionCount\": 0,\n    \"flagCount\": 0,\n    \"topConcerns\": [\"concern 1\", \"concern 2\"],\n    \"skinTypeNotes\": \"Notes about which skin types this is suitable for\",\n    \"pregnancyNote\": \"Overall pregnancy safety note\"\n  \x7d\n\x7d\n\nSafety ratings:\n- safe: Generally recognized as safe, well-studied\n- caution: Some concerns, use with awareness (e.g. retinol, acids, fragrance)\n- flag: Known irritants, allergens, banned in some regions, or controversial (e.g. parabens, oxybenzone, formaldehyde releasers)\n\ncomedogenic: 0-5 scale (0=non-comedogenic, 5=highly comedogenic)\newgScore: 1-10 (1=safest, 10=highest concern)\npregnancySafe: true, false, or null if unknown\n\nReturn ONLY the JSON. No explanation, no markdown, no code fences."

def part000SystemPrompt : String :=
  "You are a world-class skincare chemist and dermatology safety expert. Your job is to analyze skincare ingredient lists and provide accurate, science-backed safety assessments.\n\nFor every ingredient found, provide a thorough JSON analysis. Use the following safety tiers:\n- \"safe\": well-tolerated, low concern, backed by strong safety data\n- \"caution\": use with care — may irritate sensitive skin, potential sensitizer, some conflicting evidence, or requires certain precautions (e.g. use SPF)\n- \"flag\": significant concern — known allergen, endocrine disruptor, banned in major regions (EU/UK/Japan), carcinogen, or strong irritant\n\nReturn ONLY a valid JSON object — no markdown, no explanation, no code fences. Structure:\n\x7b\n  \"productName\": \"string or null\",\n  \"extractedIngredientText\": \"the raw ingredient list as extracted\",\n  \"ingredients\": [\n    \x7b\n      \"name\": \"common name (string)\",\n      \"inci\": \"INCI / scientific name (string)\",\n      \"safety\": \"safe | caution | flag\",\n      \"category\": [\"array of categories e.g. Humectant, Preservative, Sunscreen, Fragrance, Emollient, Exfoliant, Antioxidant, Retinoid, Surfactant, Emulsifier, Colorant, Occlusive, Anti-acne, Brightener, Soothing, Anti-aging, Vitamin, Mineral\"],\n      \"description\": \"2–3 sentence explanation of what this ingredient is and what it does in skincare\",\n      \"benefits\": [\"array of specific benefits\"],\n      \"concerns\": [\"array of specific concerns, or empty array if none\"],\n      \"comedogenic\": 0,\n      \"pregnancySafe\": true,\n      \"bannedRegions\": [\"array of regions where restricted/banned e.g. EU, UK, Japan, Hawaii, California\"],\n      \"ewgScore\": 1\n    \x7d\n  ],\n  \"summary\": \x7b\n    \"overallSafety\": \"safe | caution | flag\",\n    \"safeCount\": 0,\n    \"cautionCount\": 0,\n    \"flagCount\": 0,\n    \"topConcerns\": [\"top 2-3 concerns as short strings\"],\n    \"skinTypeNotes\": \"1–2 sentences about suitability across skin types\",\n    \"pregnancyNote\": \"1 sentence about pregnancy safety\"\n  \x7d\n\x7d\n\ncomedogenic scale: 0 = won't clog pores, 5 = highly comedogenic\newgScore: 1 (low hazard) to 10 (high hazard) per EWG Skin Deep database norms\npregnancySafe: true / false / null (if unknown)"

/-- Inbound request as both handlers see it: an HTTP method and a raw
body string (`event.httpMethod` and `event.body` in analyze.js,
`req.method` and `req.json()` in the SDK variant). -/
structure Event where
  httpMethod : String
  body : String
deriving DecidableEq

/-- Stubbed behaviour of `fetch` in analyze.js: the promise rejects, or
resolves with an `ok` flag and a raw body text (read by `response.text()`
or parsed by `response.json()`). -/
inductive FetchResult where
  | throws (msg : String)
  | response (ok : Bool) (text : String)
deriving DecidableEq

/-- Stubbed behaviour of `client.messages.create` in the SDK variant:
the promise rejects, or resolves with the decoded message value. -/
inductive SdkResult where
  | throws (msg : String)
  | reply (data : Json)

structure HandlerResponse where
  statusCode : Nat
  headers : List (String × String)
  body : String
deriving DecidableEq

/-- A handler run either produces a response or lets a JS exception
escape to the host (an unhandled promise rejection). -/
inductive Outcome where
  | ok (r : HandlerResponse)
  | thrown (msg : String)
deriving DecidableEq

/-- Result of one handler run: the outcome, the number of upstream
calls made, and the serialized outbound payload when a call was made. -/
structure RunResult where
  outcome : Outcome
  calls : Nat
  sent : Option String
deriving DecidableEq

/-- `!apiKey` in JS: absent or empty keys are falsy. -/
def keyPresent : Option String → Bool
  | none => false
  | some k => ! k.isEmpty

def errJson (msg : String) : String := stringify (.obj [("error", .str msg)])

def modeIsImage : Json → Bool
  | .str s => s = "image"
  | _ => false

def modeIsProduct : Json → Bool
  | .str s => s = "product"
  | _ => false

/-- The `source` block of an image message: type base64, the media type
defaulting to image/jpeg when `mimeType` is falsy, and the content. -/
def imageSource (content : Json) (mimeType : Option Json) : Json :=
  .obj [("type", .str "base64"),
        ("media_type",
          match mimeType with
          | some m => if jsTruthy m then m else .str "image/jpeg"
          | none => .str "image/jpeg"),
        ("data", content)]

/-- analyze.js, line 34: segment count of the split on newline or comma
(a split never merges, so the count is one more than the number of
delimiters) and the trimmed length.  JS counts UTF-16 units; the inputs
of interest are ASCII, where Lean characters coincide. -/
def splitSegments (s : String) : Nat :=
  1 + (s.data.filter (fun c => c = '\n' || c = ',')).length

def isProductName (content : String) : Bool :=
  decide (splitSegments (jsTrim content) ≤ 3) && decide ((jsTrim content).data.length < 80)

def productTemplate (content : String) : String :=
  "Analyze the ingredients in this skincare product: \"" ++ content ++
  "\". If you know this product, list and analyze its ingredients."

def ingredientListTemplate (content : String) : String :=
  "Analyze these skincare ingredients:\n\n" ++ content

def analyzeImageInstruction : String :=
  "Please read the ingredient list from this skincare product label image and analyze each ingredient. Extract all ingredients you can see, then analyze them."

/-- analyze.js, lines 21-38: the constructed outbound user message.
`none` models the TypeError thrown (outside the try block) when a
non-image mode carries a non-string `content` (`content.trim` is not a
function). -/
def analyzeUserMessage (mode content : Json) (mimeType : Option Json) : Option Json :=
  if modeIsImage mode then
    some (.arr [.obj [("type", .str "image"), ("source", imageSource content mimeType)],
                .obj [("type", .str "text"), ("text", .str analyzeImageInstruction)]])
  else
    match content with
    | .str s =>
      some (.str (if isProductName s then productTemplate s else ingredientListTemplate s))
    | _ => none

/-- analyze.js, lines 91-96: the serialized fetch request body. -/
def analyzePayload (userMessage : Json) : String :=
  stringify (.obj [("model", .str "claude-opus-4-5"),
                   ("max_tokens", .num "8192"),
                   ("system", .str analyzeSystemPrompt),
                   ("messages", .arr [.obj [("role", .str "user"), ("content", userMessage)]])])

/-- analyze.js, lines 105-108: `data.content[0].text.trim()` followed by
the two anchored fence replacements and the final trim. -/
def analyzeClean (t : String) : String :=
  jsTrim ⟨stripTrailFenceChars (stripLeadFenceChars (jsTrim t).data)⟩

/-- The analyze.js normalizer: clean the reply text, then `JSON.parse`. -/
def analyzeRecover (t : String) : Option Json := parseJson (analyzeClean t)

def okHeaders : List (String × String) :=
  [("Content-Type", "application/json"), ("Access-Control-Allow-Origin", "*")]

/-- analyze.js, lines 83-124: the try block around the upstream call;
every rejection inside is caught and turned into a 500 response. -/
def analyzeUpstream (fetchRes : FetchResult) : HandlerResponse :=
  match fetchRes with
  | .throws msg => ⟨500, [], errJson msg⟩
  | .response ok text =>
    if ok then
      match parseJson text with
      | none => ⟨500, [], errJson "Unexpected token in JSON"⟩
      | some data =>
        match replyText data "trim" with
        | .error m => ⟨500, [], errJson m⟩
        | .ok t0 =>
          match analyzeRecover t0 with
          | none =>
            ⟨500, [], stringify (.obj [("error", .str "Failed to parse AI response as JSON"),
                                       ("raw", .str ⟨(analyzeClean t0).data.take 500⟩)])⟩
          | some parsed => ⟨200, okHeaders, stringify parsed⟩
    else ⟨500, [], errJson ("Anthropic API error: " ++ text)⟩

/-- The fetch-based handler (netlify/functions/analyze.js), as a pure
function of the environment, the stubbed transport and the event. -/
def analyzeRun (env : Option String) (fetchRes : FetchResult) (e : Event) : RunResult :=
  if e.httpMethod ≠ "POST" then
    ⟨.ok ⟨405, [], errJson "Method not allowed"⟩, 0, none⟩
  else if ! keyPresent env then
    ⟨.ok ⟨500, [], errJson "ANTHROPIC_API_KEY not set in environment variables"⟩, 0, none⟩
  else
    match parseJson e.body with
    | none => ⟨.ok ⟨400, [], errJson "Invalid JSON body"⟩, 0, none⟩
    | some .null => ⟨.thrown "Cannot destructure property 'mode' of 'body' as it is null.", 0, none⟩
    | some bodyJson =>
      match destructure bodyJson "mode", destructure bodyJson "content" with
      | some m, some c =>
        if jsTruthy m && jsTruthy c then
          match analyzeUserMessage m c (destructure bodyJson "mimeType") with
          | none => ⟨.thrown "content.trim is not a function", 0, none⟩
          | some userMessage =>
            ⟨.ok (analyzeUpstream fetchRes), 1, some (analyzePayload userMessage)⟩
        else ⟨.ok ⟨400, [], errJson "Missing mode or content"⟩, 0, none⟩
      | _, _ => ⟨.ok ⟨400, [], errJson "Missing mode or content"⟩, 0, none⟩

def part000ImageInstruction : String :=
  "Extract the complete ingredient list from this product label image. \nThen analyze EVERY ingredient found for safety, benefits, and concerns.\nIf you can identify the product name/brand, include it.\nReturn the full structured JSON analysis as specified."

def part000ProductTemplate (content : String) : String :=
  "Analyze this skincare product: \"" ++ content ++
  "\"\n\nIf you recognize this as a specific product (e.g. \"CeraVe Moisturizing Cream\"), use its known ingredient list.\nIf it's a product type (e.g. \"basic moisturizer\"), analyze typical ingredients for that category.\nSet \"productName\" to the product name if identifiable.\nReturn the full structured JSON analysis."

def part000TextTemplate (content : String) : String :=
  "Analyze this skincare input: \"" ++ content ++
  "\"\n\nIMPORTANT:\n- If this looks like a product name or brand (e.g. \"The Ordinary Niacinamide 10%\"), identify it and use its known ingredient list. Set \"productName\" accordingly.\n- If this is already an ingredient list (separated by commas, newlines, slashes, or bullets), parse and analyze those exact ingredients. Set \"productName\" to null.\n\nAnalyze EVERY ingredient found and return the full structured JSON analysis."

/-- SDK variant, lines 78-129: the single user message; `product` and
`text` modes interpolate `content` into a template (JS string coercion,
no exception), and there is no product-name heuristic. -/
def part000UserMessage (mode content : Json) (mimeType : Option Json) : Json :=
  if modeIsImage mode then
    .arr [.obj [("type", .str "image"), ("source", imageSource content mimeType)],
          .obj [("type", .str "text"), ("text", .str part000ImageInstruction)]]
  else if modeIsProduct mode then .str (part000ProductTemplate (jsCoerceString content))
  else .str (part000TextTemplate (jsCoerceString content))

def part000Payload (userMessage : Json) : String :=
  stringify (.obj [("model", .str "claude-sonnet-4-20250514"),
                   ("max_tokens", .num "8192"),
                   ("system", .str part000SystemPrompt),
                   ("messages", .arr [.obj [("role", .str "user"), ("content", userMessage)]])])

def ctJson : List (String × String) := [("Content-Type", "application/json")]

def failedBody (details : String) : String :=
  stringify (.obj [("error", .str "Analysis failed"), ("details", .str details)])

/-- SDK variant, line 142: the two global fence replacements and trim. -/
def part000Clean (t : String) : String :=
  jsTrim ⟨stripAllFence (stripAllJsonFence t.data)⟩

/-- The SDK variant normalizer: clean, extract the brace span, parse. -/
def part000Recover (t : String) : Option Json :=
  match braceSpan (part000Clean t).data with
  | none => none
  | some span => parseChars span

/-- SDK variant, lines 131-163: the try block; every rejection is
caught and reported as a 500 with error "Analysis failed" and the
rejection message under `details`. -/
def part000Upstream (sdk : SdkResult) : HandlerResponse :=
  match sdk with
  | .throws m => ⟨500, ctJson, failedBody m⟩
  | .reply data =>
    match replyText data "replace" with
    | .error m => ⟨500, ctJson, failedBody m⟩
    | .ok raw =>
      match braceSpan (part000Clean raw).data with
      | none => ⟨500, ctJson, failedBody "Could not extract JSON from Claude response"⟩
      | some span =>
        match parseChars span with
        | none => ⟨500, ctJson, failedBody "Unexpected token in JSON"⟩
        | some analysis => ⟨200, ctJson, stringify analysis⟩

/-- The SDK-based handler (the unnamed source file), as a pure function
of the environment, the stubbed client and the event.  Note the check
order: body validation precedes the API-key check, and the 405 response
body is plain text. -/
def part000Run (env : Option String) (sdk : SdkResult) (e : Event) : RunResult :=
  if e.httpMethod ≠ "POST" then
    ⟨.ok ⟨405, [], "Method not allowed"⟩, 0, none⟩
  else
    match parseJson e.body with
    | none => ⟨.ok ⟨400, ctJson, errJson "Invalid JSON body"⟩, 0, none⟩
    | some .null => ⟨.thrown "Cannot destructure property 'mode' of 'body' as it is null.", 0, none⟩
    | some bodyJson =>
      match destructure bodyJson "mode", destructure bodyJson "content" with
      | some m, some c =>
        if jsTruthy m && jsTruthy c then
          if ! keyPresent env then
            ⟨.ok ⟨500, ctJson, errJson "API key not configured"⟩, 0, none⟩
          else
            ⟨.ok (part000Upstream sdk), 1,
             some (part000Payload (part000UserMessage m c (destructure bodyJson "mimeType")))⟩
        else ⟨.ok ⟨400, ctJson, errJson "Missing required fields: mode, content"⟩, 0, none⟩
      | _, _ => ⟨.ok ⟨400, ctJson, errJson "Missing required fields: mode, content"⟩, 0, none⟩

def jsTruthyO : Option Json → Bool
  | none => false
  | some j => jsTruthy j

/-- The decoded shape of a successful completion-service reply carrying
text `t`, as both handlers read it (`content[0].text`). -/
def envelopeOf (t : String) : Json :=
  .obj [("content", .arr [.obj [("type", .str "text"), ("text", .str t)]])]

/-- The claim-side top-level shape check of §3: a JSON object whose
`ingredients` field, when present, is an array. -/
def resultShapeOk (body : String) : Bool :=
  match parseJson body with
  | some (.obj fs) =>
    match lookupField fs "ingredients" with
    | some (.arr _) => true
    | some _ => false
    | none => true
  | _ => false

/-- Claim-side: whether a string is recoverable as a JSON object. -/
def isObjOpt : Option Json → Bool
  | some (.obj _) => true
  | _ => false

/-- An upstream reply consisting of `s` wrapped in triple-backtick
fences bounding the whole reply, with or without a `json` tag. -/
def wrapFence (tag : Bool) (s : String) : String :=
  (if tag then "```json\n" else "```\n") ++ s ++ "\n```"

theorem dropWhile_noop (p : Char → Bool) (l : List Char)
    (h : ∀ c, l.head? = some c → p c = false) : l.dropWhile p = l := by
  cases l with
  | nil => rfl
  | cons a t => simp [List.dropWhile_cons, h a rfl]

theorem trimChars_noop (l : List Char)
    (h1 : ∀ c, l.head? = some c → jsWs c = false)
    (h2 : ∀ c, l.getLast? = some c → jsWs c = false) :
    trimChars l = l := by
  unfold trimChars
  rw [dropWhile_noop _ _ h1, dropWhile_noop, List.reverse_reverse]
  intro c hc
  rw [List.head?_reverse] at hc
  exact h2 c hc

theorem jsTrim_noop (s : String)
    (h1 : ∀ c, s.data.head? = some c → jsWs c = false)
    (h2 : ∀ c, s.data.getLast? = some c → jsWs c = false) :
    jsTrim s = s := by
  unfold jsTrim
  rw [trimChars_noop _ h1 h2]

theorem stripLead_noop (l : List Char) (h : ∀ c, l.head? = some c → c ≠ '\x60') :
    stripLeadFenceChars l = l := by
  unfold stripLeadFenceChars
  rw [if_neg]
  intro heq
  cases l with
  | nil => simp [fence3] at heq
  | cons a t =>
    simp [fence3, List.take_succ_cons] at heq
    exact h a rfl heq.1

theorem stripTrail_noop (l : List Char) (h : ∀ c, l.getLast? = some c → c ≠ '\x60') :
    stripTrailFenceChars l = l := by
  unfold stripTrailFenceChars
  rw [if_neg]
  intro heq
  cases hr : l.reverse with
  | nil => rw [hr] at heq; simp [fence3] at heq
  | cons a t =>
    rw [hr] at heq
    simp [fence3, List.take_succ_cons] at heq
    have ha : l.getLast? = some a := by rw [← List.head?_reverse, hr]; rfl
    exact h a ha heq.1

theorem stripLead_tagged (rest : List Char) (h : ∀ c, rest.head? = some c → jsWs c = false) :
    stripLeadFenceChars ('\x60' :: '\x60' :: '\x60' :: 'j' :: 's' :: 'o' :: 'n' :: '\n' :: rest) = rest := by
  show List.dropWhile jsWs rest = rest
  exact dropWhile_noop _ _ h

theorem stripLead_untagged (rest : List Char) (h : ∀ c, rest.head? = some c → jsWs c = false) :
    stripLeadFenceChars ('\x60' :: '\x60' :: '\x60' :: '\n' :: rest) = rest := by
  show List.dropWhile jsWs rest = rest
  exact dropWhile_noop _ _ h

theorem stripTrail_close (rest : List Char) (h : ∀ c, rest.getLast? = some c → jsWs c = false) :
    stripTrailFenceChars (rest ++ ['\n', '\x60', '\x60', '\x60']) = rest := by
  unfold stripTrailFenceChars
  rw [List.reverse_append]
  have hrev : (['\n', '\x60', '\x60', '\x60'] : List Char).reverse = ['\x60', '\x60', '\x60', '\n'] := rfl
  rw [hrev]
  show (List.dropWhile jsWs rest.reverse).reverse = rest
  rw [dropWhile_noop, List.reverse_reverse]
  intro c hc
  rw [List.head?_reverse] at hc
  exact h c hc

theorem toNat_ofNat_valid (n : Nat) (h : n.isValidChar) : (Char.ofNat n).toNat = n := by
  unfold Char.ofNat
  rw [dif_pos h]
  rfl

theorem toLower_ne_bt (c : Char) (h : c ≠ '\x60') : c.toLower ≠ '\x60' := by
  show (if c.toNat ≥ 65 ∧ c.toNat ≤ 90 then Char.ofNat (c.toNat + 32) else c) ≠ '\x60'
  split
  · rename_i hr
    intro heq
    have hv : (c.toNat + 32).isValidChar := by
      left
      omega
    have h2 := congrArg Char.toNat heq
    rw [toNat_ofNat_valid _ hv] at h2
    have h96 : ('\x60').toNat = 96 := rfl
    rw [h96] at h2
    omega
  · exact h

theorem stripAllJsonFenceF_fuel (fuel : Nat) (l : List Char) (h : l.length ≤ fuel) :
    stripAllJsonFenceF fuel l = stripAllJsonFence l := by
  induction fuel using Nat.strong_induction_on generalizing l with
  | _ fuel IH =>
    cases l with
    | nil => cases fuel <;> rfl
    | cons c rest =>
      cases fuel with
      | zero => simp at h
      | succ fuel =>
        have hlen : rest.length ≤ fuel := by simp at h; omega
        show (if ((c :: rest).take 7).map Char.toLower = fenceJson then
                stripAllJsonFenceF fuel (skipWs (rest.drop 6))
              else c :: stripAllJsonFenceF fuel rest) =
             (if ((c :: rest).take 7).map Char.toLower = fenceJson then
                stripAllJsonFenceF rest.length (skipWs (rest.drop 6))
              else c :: stripAllJsonFenceF rest.length rest)
        split
        · have hX : (skipWs (rest.drop 6)).length ≤ rest.length := by
            have hd : (List.dropWhile jsWs (rest.drop 6)).length ≤ (rest.drop 6).length :=
              (List.dropWhile_sublist jsWs).length_le
            simp only [skipWs]
            simp only [List.length_drop] at hd
            omega
          rw [IH fuel (by omega) _ (by omega), IH rest.length (by omega) _ hX]
        · rw [IH fuel (by omega) rest hlen]
          rfl

theorem stripAllFenceF_fuel (fuel : Nat) (l : List Char) (h : l.length ≤ fuel) :
    stripAllFenceF fuel l = stripAllFence l := by
  induction fuel using Nat.strong_induction_on generalizing l with
  | _ fuel IH =>
    cases l with
    | nil => cases fuel <;> rfl
    | cons c rest =>
      cases fuel with
      | zero => simp at h
      | succ fuel =>
        have hlen : rest.length ≤ fuel := by simp at h; omega
        show (if (c :: rest).take 3 = fence3 then
                stripAllFenceF fuel (skipWs (rest.drop 2))
              else c :: stripAllFenceF fuel rest) =
             (if (c :: rest).take 3 = fence3 then
                stripAllFenceF rest.length (skipWs (rest.drop 2))
              else c :: stripAllFenceF rest.length rest)
        split
        · have hX : (skipWs (rest.drop 2)).length ≤ rest.length := by
            have hd : (List.dropWhile jsWs (rest.drop 2)).length ≤ (rest.drop 2).length :=
              (List.dropWhile_sublist jsWs).length_le
            simp only [skipWs]
            simp only [List.length_drop] at hd
            omega
          rw [IH fuel (by omega) _ (by omega), IH rest.length (by omega) _ hX]
        · rw [IH fuel (by omega) rest hlen]
          rfl

theorem stripAllJsonFence_append_clean (l1 l2 : List Char) (h : ∀ c ∈ l1, c ≠ '\x60') :
    stripAllJsonFence (l1 ++ l2) = l1 ++ stripAllJsonFence l2 := by
  induction l1 with
  | nil => rfl
  | cons c t IH =>
    have hc : Char.toLower c ≠ '\x60' := toLower_ne_bt c (h c (by simp))
    have hcond : ¬((((c :: t) ++ l2).take 7).map Char.toLower = fenceJson) := by
      intro heq
      rw [List.cons_append, List.take_succ_cons, List.map_cons] at heq
      have : Char.toLower c = '\x60' := by
        have := congrArg List.head? heq
        simpa [fenceJson] using this
      exact hc this
    show stripAllJsonFenceF ((c :: (t ++ l2)).length) (c :: (t ++ l2)) = _
    rw [List.length_cons]
    show (if (((c :: (t ++ l2))).take 7).map Char.toLower = fenceJson then
            stripAllJsonFenceF (t ++ l2).length (skipWs ((t ++ l2).drop 6))
          else c :: stripAllJsonFenceF (t ++ l2).length (t ++ l2)) = _
    rw [if_neg (by simpa using hcond)]
    show c :: stripAllJsonFence (t ++ l2) = _
    rw [IH (fun c hc2 => h c (by simp [hc2]))]
    rfl

theorem stripAllFence_append_clean (l1 l2 : List Char) (h : ∀ c ∈ l1, c ≠ '\x60') :
    stripAllFence (l1 ++ l2) = l1 ++ stripAllFence l2 := by
  induction l1 with
  | nil => rfl
  | cons c t IH =>
    have hc : c ≠ '\x60' := h c (by simp)
    have hcond : ¬(((c :: t) ++ l2).take 3 = fence3) := by
      intro heq
      rw [List.cons_append, List.take_succ_cons] at heq
      have : c = '\x60' := by
        have := congrArg List.head? heq
        simpa [fence3] using this
      exact hc this
    show stripAllFenceF ((c :: (t ++ l2)).length) (c :: (t ++ l2)) = _
    rw [List.length_cons]
    show (if ((c :: (t ++ l2))).take 3 = fence3 then
            stripAllFenceF (t ++ l2).length (skipWs ((t ++ l2).drop 2))
          else c :: stripAllFenceF (t ++ l2).length (t ++ l2)) = _
    rw [if_neg (by simpa using hcond)]
    show c :: stripAllFence (t ++ l2) = _
    rw [IH (fun c hc2 => h c (by simp [hc2]))]
    rfl

theorem stripAllJsonFence_tagged (rest : List Char)
    (h : ∀ c, rest.head? = some c → jsWs c = false) :
    stripAllJsonFence ('\x60' :: '\x60' :: '\x60' :: 'j' :: 's' :: 'o' :: 'n' :: '\n' :: rest) =
      stripAllJsonFence rest := by
  show stripAllJsonFenceF (rest.length + 7) (List.dropWhile jsWs rest) = _
  rw [dropWhile_noop _ _ h]
  exact stripAllJsonFenceF_fuel _ _ (by omega)

theorem stripAllJsonFence_untagged (rest : List Char) :
    stripAllJsonFence ('\x60' :: '\x60' :: '\x60' :: '\n' :: rest) =
      '\x60' :: '\x60' :: '\x60' :: '\n' :: stripAllJsonFence rest := rfl

theorem stripAllFence_open (rest : List Char)
    (h : ∀ c, rest.head? = some c → jsWs c = false) :
    stripAllFence ('\x60' :: '\x60' :: '\x60' :: '\n' :: rest) = stripAllFence rest := by
  show stripAllFenceF (rest.length + 3) (List.dropWhile jsWs rest) = _
  rw [dropWhile_noop _ _ h]
  exact stripAllFenceF_fuel _ _ (by omega)

theorem getLast_append_bt (X : List Char) :
    (X ++ ['\n', '\x60', '\x60', '\x60']).getLast? = some '\x60' := by
  rw [← List.head?_reverse, List.reverse_append]
  rfl

theorem trimChars_append_nl (l : List Char)
    (h1 : ∀ c, l.head? = some c → jsWs c = false)
    (h2 : ∀ c, l.getLast? = some c → jsWs c = false) :
    trimChars (l ++ ['\n']) = l := by
  rcases l with _ | ⟨a, t⟩
  · rfl
  · have hfront : List.dropWhile jsWs (a :: (t ++ ['\n'])) = a :: (t ++ ['\n']) := by
      apply dropWhile_noop
      intro c hc
      have hca : c = a := by simpa using hc.symm
      exact hca ▸ h1 a rfl
    unfold trimChars
    rw [show (a :: t) ++ ['\n'] = a :: (t ++ ['\n']) from rfl, hfront,
        show a :: (t ++ ['\n']) = (a :: t) ++ ['\n'] from rfl, List.reverse_append]
    show (List.dropWhile jsWs ((a :: t).reverse)).reverse = a :: t
    rw [dropWhile_noop _ _ (fun c hc => by rw [List.head?_reverse] at hc; exact h2 c hc),
        List.reverse_reverse]

theorem braceSpan_whole (l : List Char)
    (hh : l.head? = some '\x7b') (hl : l.getLast? = some '\x7d') :
    braceSpan l = some l := by
  have h1 : List.dropWhile (fun c => decide (c ≠ '\x7b')) l = l :=
    dropWhile_noop _ _ (fun c hc => by
      rw [hh] at hc
      have : c = '\x7b' := by simpa using hc.symm
      rw [this]
      rfl)
  have h2 : List.dropWhile (fun c => decide (c ≠ '\x7d')) l.reverse = l.reverse :=
    dropWhile_noop _ _ (fun c hc => by
      rw [List.head?_reverse, hl] at hc
      have : c = '\x7d' := by simpa using hc.symm
      rw [this]
      rfl)
  unfold braceSpan
  simp only [h1, h2, List.reverse_reverse]
  rw [if_neg]
  simp only [List.isEmpty_iff]
  intro hnil
  rw [hnil] at hh
  simp at hh

theorem head_cons_nonWs (t : List Char) :
    ∀ c, ('\x7b' :: t).head? = some c → jsWs c = false := by
  intro c hc
  have : c = '\x7b' := by simpa using hc.symm
  rw [this]
  rfl

theorem analyzeClean_wrapped (s : String) (tag : Bool)
    (hh : s.data.head? = some '\x7b') (hl : s.data.getLast? = some '\x7d') :
    analyzeClean (wrapFence tag s) = s := by
  obtain ⟨t, ht⟩ : ∃ t, s.data = '\x7b' :: t := by
    rcases hd : s.data with _ | ⟨a, t⟩
    · rw [hd] at hh; simp at hh
    · rw [hd] at hh
      simp at hh
      exact ⟨t, by rw [hh]⟩
  have hlNonWs : ∀ c, s.data.getLast? = some c → jsWs c = false := by
    intro c hc
    rw [hl] at hc
    have : c = '\x7d' := by simpa using hc.symm
    rw [this]
    rfl
  have hheadNonWs : ∀ c, s.data.head? = some c → jsWs c = false := by
    rw [ht]
    exact head_cons_nonWs _
  have hrestHead : ∀ c, (s.data ++ ['\n', '\x60', '\x60', '\x60']).head? = some c → jsWs c = false := by
    rw [ht]
    exact head_cons_nonWs _
  cases tag
  · have h1 : jsTrim (wrapFence false s) = wrapFence false s := by
      apply jsTrim_noop
      · intro c hc
        rw [show (wrapFence false s).data =
              '\x60' :: '\x60' :: '\x60' :: '\n' :: (s.data ++ ['\n', '\x60', '\x60', '\x60']) from rfl] at hc
        have : c = '\x60' := by simpa using hc.symm
        rw [this]
        rfl
      · intro c hc
        rw [show (wrapFence false s).data =
              ('\x60' :: '\x60' :: '\x60' :: '\n' :: s.data) ++ ['\n', '\x60', '\x60', '\x60'] from rfl,
            getLast_append_bt] at hc
        have : c = '\x60' := by simpa using hc.symm
        rw [this]
        rfl
    show jsTrim ⟨stripTrailFenceChars (stripLeadFenceChars (jsTrim (wrapFence false s)).data)⟩ = s
    rw [h1]
    have h2 : stripLeadFenceChars ((wrapFence false s).data) = s.data ++ ['\n', '\x60', '\x60', '\x60'] := by
      rw [show (wrapFence false s).data =
            '\x60' :: '\x60' :: '\x60' :: '\n' :: (s.data ++ ['\n', '\x60', '\x60', '\x60']) from rfl]
      exact stripLead_untagged _ hrestHead
    rw [h2, stripTrail_close _ hlNonWs]
    exact jsTrim_noop _ hheadNonWs hlNonWs
  · have h1 : jsTrim (wrapFence true s) = wrapFence true s := by
      apply jsTrim_noop
      · intro c hc
        rw [show (wrapFence true s).data =
              '\x60' :: '\x60' :: '\x60' :: 'j' :: 's' :: 'o' :: 'n' :: '\n' ::
                (s.data ++ ['\n', '\x60', '\x60', '\x60']) from rfl] at hc
        have : c = '\x60' := by simpa using hc.symm
        rw [this]
        rfl
      · intro c hc
        rw [show (wrapFence true s).data =
              ('\x60' :: '\x60' :: '\x60' :: 'j' :: 's' :: 'o' :: 'n' :: '\n' :: s.data) ++
                ['\n', '\x60', '\x60', '\x60'] from rfl,
            getLast_append_bt] at hc
        have : c = '\x60' := by simpa using hc.symm
        rw [this]
        rfl
    show jsTrim ⟨stripTrailFenceChars (stripLeadFenceChars (jsTrim (wrapFence true s)).data)⟩ = s
    rw [h1]
    have h2 : stripLeadFenceChars ((wrapFence true s).data) = s.data ++ ['\n', '\x60', '\x60', '\x60'] := by
      rw [show (wrapFence true s).data =
            '\x60' :: '\x60' :: '\x60' :: 'j' :: 's' :: 'o' :: 'n' :: '\n' ::
              (s.data ++ ['\n', '\x60', '\x60', '\x60']) from rfl]
      exact stripLead_tagged _ hrestHead
    rw [h2, stripTrail_close _ hlNonWs]
    exact jsTrim_noop _ hheadNonWs hlNonWs

theorem part000Clean_wrapped (s : String) (tag : Bool)
    (hh : s.data.head? = some '\x7b') (hl : s.data.getLast? = some '\x7d')
    (hclean : ∀ c ∈ s.data, c ≠ '\x60') :
    part000Clean (wrapFence tag s) = s := by
  obtain ⟨t, ht⟩ : ∃ t, s.data = '\x7b' :: t := by
    rcases hd : s.data with _ | ⟨a, t⟩
    · rw [hd] at hh; simp at hh
    · rw [hd] at hh
      simp at hh
      exact ⟨t, by rw [hh]⟩
  have hlNonWs : ∀ c, s.data.getLast? = some c → jsWs c = false := by
    intro c hc
    rw [hl] at hc
    have : c = '\x7d' := by simpa using hc.symm
    rw [this]
    rfl
  have hheadNonWs : ∀ c, s.data.head? = some c → jsWs c = false := by
    rw [ht]
    exact head_cons_nonWs _
  have hrestHead : ∀ c, (s.data ++ ['\n', '\x60', '\x60', '\x60']).head? = some c → jsWs c = false := by
    rw [ht]
    exact head_cons_nonWs _
  have hjson : stripAllJsonFence (s.data ++ ['\n', '\x60', '\x60', '\x60']) =
      s.data ++ ['\n', '\x60', '\x60', '\x60'] := by
    rw [stripAllJsonFence_append_clean _ _ hclean,
        show stripAllJsonFence ['\n', '\x60', '\x60', '\x60'] = ['\n', '\x60', '\x60', '\x60'] from rfl]
  have hplain : stripAllFence (s.data ++ ['\n', '\x60', '\x60', '\x60']) = s.data ++ ['\n'] := by
    rw [stripAllFence_append_clean _ _ hclean,
        show stripAllFence ['\n', '\x60', '\x60', '\x60'] = ['\n'] from rfl]
  cases tag
  · show jsTrim ⟨stripAllFence (stripAllJsonFence ((wrapFence false s).data))⟩ = s
    rw [show (wrapFence false s).data =
          '\x60' :: '\x60' :: '\x60' :: '\n' :: (s.data ++ ['\n', '\x60', '\x60', '\x60']) from rfl,
        stripAllJsonFence_untagged, hjson]
    rw [show ('\x60' :: '\x60' :: '\x60' :: '\n' :: (s.data ++ ['\n', '\x60', '\x60', '\x60']) : List Char) =
          '\x60' :: '\x60' :: '\x60' :: '\n' :: (s.data ++ ['\n', '\x60', '\x60', '\x60']) from rfl]
    rw [stripAllFence_open _ hrestHead, hplain]
    show (⟨trimChars (s.data ++ ['\n'])⟩ : String) = s
    rw [trimChars_append_nl _ hheadNonWs hlNonWs]
  · show jsTrim ⟨stripAllFence (stripAllJsonFence ((wrapFence true s).data))⟩ = s
    rw [show (wrapFence true s).data =
          '\x60' :: '\x60' :: '\x60' :: 'j' :: 's' :: 'o' :: 'n' :: '\n' ::
            (s.data ++ ['\n', '\x60', '\x60', '\x60']) from rfl,
        stripAllJsonFence_tagged _ hrestHead, hjson, hplain]
    show (⟨trimChars (s.data ++ ['\n'])⟩ : String) = s
    rw [trimChars_append_nl _ hheadNonWs hlNonWs]

theorem analyzeClean_plain (s : String)
    (hh : s.data.head? = some '\x7b') (hl : s.data.getLast? = some '\x7d') :
    analyzeClean s = s := by
  have hlNonWs : ∀ c, s.data.getLast? = some c → jsWs c = false := by
    intro c hc
    rw [hl] at hc
    have : c = '\x7d' := by simpa using hc.symm
    rw [this]
    rfl
  have hheadNonWs : ∀ c, s.data.head? = some c → jsWs c = false := by
    intro c hc
    rw [hh] at hc
    have : c = '\x7b' := by simpa using hc.symm
    rw [this]
    rfl
  show jsTrim ⟨stripTrailFenceChars (stripLeadFenceChars (jsTrim s).data)⟩ = s
  rw [jsTrim_noop _ hheadNonWs hlNonWs]
  rw [stripLead_noop _ (fun c hc => by
    rw [hh] at hc
    have : c = '\x7b' := by simpa using hc.symm
    rw [this]
    decide)]
  rw [stripTrail_noop _ (fun c hc => by
    rw [hl] at hc
    have : c = '\x7d' := by simpa using hc.symm
    rw [this]
    decide)]
  exact jsTrim_noop _ hheadNonWs hlNonWs

theorem part000Clean_plain (s : String)
    (hh : s.data.head? = some '\x7b') (hl : s.data.getLast? = some '\x7d')
    (hclean : ∀ c ∈ s.data, c ≠ '\x60') :
    part000Clean s = s := by
  have hlNonWs : ∀ c, s.data.getLast? = some c → jsWs c = false := by
    intro c hc
    rw [hl] at hc
    have : c = '\x7d' := by simpa using hc.symm
    rw [this]
    rfl
  have hheadNonWs : ∀ c, s.data.head? = some c → jsWs c = false := by
    intro c hc
    rw [hh] at hc
    have : c = '\x7b' := by simpa using hc.symm
    rw [this]
    rfl
  have hjson : stripAllJsonFence s.data = s.data := by
    have := stripAllJsonFence_append_clean s.data [] hclean
    simpa [show stripAllJsonFence ([] : List Char) = [] from rfl] using this
  have hplain : stripAllFence s.data = s.data := by
    have := stripAllFence_append_clean s.data [] hclean
    simpa [show stripAllFence ([] : List Char) = [] from rfl] using this
  show jsTrim ⟨stripAllFence (stripAllJsonFence s.data)⟩ = s
  rw [hjson, hplain]
  exact jsTrim_noop _ hheadNonWs hlNonWs

theorem replyText_envelope (t : String) (meth : String) :
    replyText (envelopeOf t) meth = .ok t := rfl

theorem analyzeRun_callPhase (env : Option String) (f : FetchResult) (e : Event)
    (bj m c msg : Json)
    (hm : e.httpMethod = "POST") (hkey : keyPresent env = true)
    (hp : parseJson e.body = some bj) (hnn : bj ≠ .null)
    (hmode : destructure bj "mode" = some m) (hcont : destructure bj "content" = some c)
    (htm : jsTruthy m = true) (htc : jsTruthy c = true)
    (hmsg : analyzeUserMessage m c (destructure bj "mimeType") = some msg) :
    analyzeRun env f e = ⟨.ok (analyzeUpstream f), 1, some (analyzePayload msg)⟩ := by
  unfold analyzeRun
  rw [if_neg (by simp [hm]), if_neg (by simp [hkey]), hp]
  rcases bj with _ | b | lit | st | xs | fs
  · exact absurd rfl hnn
  all_goals simp [hmode, hcont, htm, htc, hmsg]

theorem part000Run_callPhase (env : Option String) (sdk : SdkResult) (e : Event)
    (bj m c : Json)
    (hm : e.httpMethod = "POST") (hkey : keyPresent env = true)
    (hp : parseJson e.body = some bj) (hnn : bj ≠ .null)
    (hmode : destructure bj "mode" = some m) (hcont : destructure bj "content" = some c)
    (htm : jsTruthy m = true) (htc : jsTruthy c = true) :
    part000Run env sdk e = ⟨.ok (part000Upstream sdk), 1,
      some (part000Payload (part000UserMessage m c (destructure bj "mimeType")))⟩ := by
  unfold part000Run
  rw [if_neg (by simp [hm]), hp]
  rcases bj with _ | b | lit | st | xs | fs
  · exact absurd rfl hnn
  all_goals simp [hmode, hcont, htm, htc, hkey]

theorem analyzeRun_calls_le (env : Option String) (f : FetchResult) (e : Event) :
    (analyzeRun env f e).calls ≤ 1 := by
  unfold analyzeRun
  (repeat' split) <;> simp

theorem part000Run_calls_le (env : Option String) (sdk : SdkResult) (e : Event) :
    (part000Run env sdk e).calls ≤ 1 := by
  unfold part000Run
  (repeat' split) <;> simp

theorem analyzeUpstream_status (f : FetchResult) :
    (analyzeUpstream f).statusCode = 200 ∨ (analyzeUpstream f).statusCode = 500 := by
  unfold analyzeUpstream
  (repeat' split) <;> simp

theorem part000Upstream_status (sdk : SdkResult) :
    (part000Upstream sdk).statusCode = 200 ∨ (part000Upstream sdk).statusCode = 500 := by
  unfold part000Upstream
  (repeat' split) <;> simp

theorem analyzeUpstream_200_body (f : FetchResult) (h : (analyzeUpstream f).statusCode = 200) :
    ∃ j, (analyzeUpstream f).body = stringify j := by
  unfold analyzeUpstream at h ⊢
  (repeat' split) <;> simp_all

theorem part000Upstream_200_body (sdk : SdkResult) (h : (part000Upstream sdk).statusCode = 200) :
    ∃ j, (part000Upstream sdk).body = stringify j := by
  unfold part000Upstream at h ⊢
  (repeat' split) <;> simp_all

theorem analyzeRun_200_body (env : Option String) (f : FetchResult) (e : Event)
    (r : HandlerResponse)
    (h1 : (analyzeRun env f e).outcome = .ok r) (h2 : r.statusCode = 200) :
    ∃ j, r.body = stringify j := by
  unfold analyzeRun at h1
  repeat' split at h1
  all_goals simp at h1
  all_goals (subst h1; try simp_all)
  exact analyzeUpstream_200_body f h2

theorem part000Run_200_body (env : Option String) (sdk : SdkResult) (e : Event)
    (r : HandlerResponse)
    (h1 : (part000Run env sdk e).outcome = .ok r) (h2 : r.statusCode = 200) :
    ∃ j, r.body = stringify j := by
  unfold part000Run at h1
  repeat' split at h1
  all_goals simp at h1
  all_goals (subst h1; try simp_all)
  exact part000Upstream_200_body sdk h2

theorem isProductName_iff (c : String) :
    isProductName c = true ↔ splitSegments (jsTrim c) ≤ 3 ∧ (jsTrim c).data.length < 80 := by
  simp [isProductName]

theorem analyzeRun_total (env : Option String) (f : FetchResult) (e : Event)
    (h1 : ∀ j, parseJson e.body = some j → j ≠ .null)
    (h2 : ∀ j m c, parseJson e.body = some j → destructure j "mode" = some m →
          destructure j "content" = some c → jsTruthy m = true → jsTruthy c = true →
          modeIsImage m = false → ∃ s, c = .str s) :
    ∃ r, (analyzeRun env f e).outcome = .ok r ∧
      (r.statusCode = 200 ∨ r.statusCode = 400 ∨ r.statusCode = 405 ∨ r.statusCode = 500) := by
  unfold analyzeRun
  repeat' split
  all_goals try (exact ⟨_, rfl, by rcases analyzeUpstream_status f with h | h <;> simp [h]⟩)
  · exact absurd rfl (h1 _ (by assumption))
  · exfalso
    rename_i humsg
    unfold analyzeUserMessage at humsg
    split at humsg
    · simp at humsg
    · split at humsg
      · simp at humsg
      · rename_i hmismatch
        obtain ⟨s, hs⟩ := h2 _ _ _ (by assumption) (by assumption) (by assumption)
          (by simp_all) (by simp_all) (by simp_all)
        exact hmismatch s hs

theorem part000Run_total (env : Option String) (sdk : SdkResult) (e : Event)
    (h1 : ∀ j, parseJson e.body = some j → j ≠ .null) :
    ∃ r, (part000Run env sdk e).outcome = .ok r ∧
      (r.statusCode = 200 ∨ r.statusCode = 400 ∨ r.statusCode = 405 ∨ r.statusCode = 500) := by
  unfold part000Run
  repeat' split
  all_goals try (exact ⟨_, rfl, by rcases part000Upstream_status sdk with h | h <;> simp [h]⟩)
  · exact absurd rfl (h1 _ (by assumption))

theorem takeWhile_all_append (p : Char → Bool) (a b : List Char)
    (ha : ∀ x ∈ a, p x = true) (hb : ∀ c, b.head? = some c → p c = false) :
    (a ++ b).takeWhile p = a := by
  induction a with
  | nil =>
    simp only [List.nil_append]
    cases b with
    | nil => rfl
    | cons c t => simp [List.takeWhile_cons, hb c rfl]
  | cons x a2 IH =>
    simp only [List.cons_append, List.takeWhile_cons, ha x (by simp)]
    rw [if_pos trivial, IH (fun y hy => ha y (by simp [hy]))]

theorem dropWhile_all_append (p : Char → Bool) (a b : List Char)
    (ha : ∀ x ∈ a, p x = true) (hb : ∀ c, b.head? = some c → p c = false) :
    (a ++ b).dropWhile p = b := by
  induction a with
  | nil =>
    simp only [List.nil_append]
    exact dropWhile_noop p b hb
  | cons x a2 IH =>
    simp only [List.cons_append, List.dropWhile_cons, ha x (by simp)]
    exact IH (fun y hy => ha y (by simp [hy]))

/-- A character cannot be a digit and equal to a non-digit character. -/
theorem digit_ne (c d : Char) (h : c.isDigit = true) (hd : d.isDigit = false) : c ≠ d := by
  intro he
  rw [he, hd] at h
  exact Bool.noConfusion h

theorem sepOk_facts (rest : List Char) (h : sepOk rest = true) :
    ∀ c, rest.head? = some c →
      c.isDigit = false ∧ c ≠ '.' ∧ c ≠ 'e' ∧ c ≠ 'E' ∧ c ≠ '+' ∧ c ≠ '-' := by
  intro c hc
  cases rest with
  | nil => simp at hc
  | cons a t =>
    simp only [List.head?_cons, Option.some.injEq] at hc
    subst hc
    unfold sepOk at h
    simp only [Bool.or_eq_true, decide_eq_true_eq] at h
    rcases h with (h | h) | h <;> subst h <;> refine ⟨by decide, by decide, by decide, by decide, by decide, by decide⟩

theorem parseFrac_head (a frac l2 : List Char)
    (h : parseNumberLit.parseFrac a = (frac, l2)) :
    ∀ c, frac.head? = some c → c = '.' := by
  intro c hc
  unfold parseNumberLit.parseFrac at h
  repeat' split at h
  all_goals simp only [Prod.mk.injEq] at h
  all_goals rw [← h.1] at hc
  all_goals simp at hc
  all_goals first
    | exact hc.symm
    | exact hc
    | (rw [← hc]; assumption)
    | (rw [hc]; assumption)

theorem parseExp_head (a ex l2 : List Char)
    (h : parseNumberLit.parseExp a = (ex, l2)) :
    ∀ c, ex.head? = some c → c = 'e' ∨ c = 'E' := by
  intro c hc
  unfold parseNumberLit.parseExp at h
  repeat' split at h
  all_goals simp only [Prod.mk.injEq] at h
  all_goals rw [← h.1] at hc
  all_goals simp at hc
  all_goals first
    | exact hc.symm
    | exact hc
    | (rw [← hc]; assumption)
    | (rw [hc]; assumption)

theorem parseFrac_nodot (l : List Char) (h : ∀ c, l.head? = some c → c ≠ '.') :
    parseNumberLit.parseFrac l = ([], l) := by
  unfold parseNumberLit.parseFrac
  cases l with
  | nil => rfl
  | cons c t =>
    split
    · rename_i heq
      injection heq with h1 h2
      exact absurd h1 (h c rfl)
    · rfl

theorem parseExp_noe (l : List Char) (h : ∀ c, l.head? = some c → c ≠ 'e' ∧ c ≠ 'E') :
    parseNumberLit.parseExp l = ([], l) := by
  unfold parseNumberLit.parseExp
  cases l with
  | nil => rfl
  | cons c t =>
    by_cases hce : c = 'e' ∨ c = 'E'
    · exact absurd hce (not_or.mpr ⟨(h c rfl).1, (h c rfl).2⟩)
    · simp only [hce, if_false]

theorem span_digits_append (ds tail : List Char)
    (hds : ∀ x ∈ ds, x.isDigit = true)
    (htail : ∀ c, tail.head? = some c → c.isDigit = false) :
    (ds ++ tail).span Char.isDigit = (ds, tail) := by
  rw [List.span_eq_take_drop, takeWhile_all_append _ _ _ hds htail,
      dropWhile_all_append _ _ _ hds htail]

theorem parseExp_replay (a ex b tail : List Char)
    (h : parseNumberLit.parseExp a = (ex, b))
    (htail : ∀ c, tail.head? = some c → c.isDigit = false ∧ c ≠ 'e' ∧ c ≠ 'E') :
    parseNumberLit.parseExp (ex ++ tail) = (ex, tail) := by
  have hnoe : parseNumberLit.parseExp tail = ([], tail) :=
    parseExp_noe tail (fun c hc => ⟨(htail c hc).2.1, (htail c hc).2.2⟩)
  have hempty : ∀ x y : List Char, ([], x) = (ex, y) → parseNumberLit.parseExp (ex ++ tail) = (ex, tail) := by
    intro x y hxy
    rw [Prod.mk.injEq] at hxy
    rw [← hxy.1, List.nil_append]
    exact hnoe
  unfold parseNumberLit.parseExp at h
  split at h
  · rename_i c0 rest0
    split at h
    · rename_i hce
      split at h
      rename_i px sgn r2 heqsgn
      split at h
      rename_i py ds r4 heqspan
      split at h
      · exact hempty _ _ h
      · rename_i hds
        rw [Prod.mk.injEq] at h
        rw [← h.1]
        rw [List.span_eq_take_drop, Prod.mk.injEq] at heqspan
        have hdig : ∀ x ∈ ds, x.isDigit = true := by
          intro x hx
          rw [← heqspan.1] at hx
          exact List.mem_takeWhile_imp hx
        have hspan2 : List.span Char.isDigit (ds ++ tail) = (ds, tail) :=
          span_digits_append ds tail hdig (fun c hc => (htail c hc).1)
        rw [List.span_eq_take_drop, Prod.mk.injEq] at hspan2
        obtain ⟨d, ds2, hdds⟩ : ∃ d ds2, ds = d :: ds2 := by
          cases ds with
          | nil => exact absurd rfl hds
          | cons d ds2 => exact ⟨d, ds2, rfl⟩
        have hdpm : ¬(d = '+' ∨ d = '-') := by
          intro hor
          have hd : d.isDigit = true := hdig d (by rw [hdds]; exact List.mem_cons_self d ds2)
          rcases hor with h1 | h1 <;> subst h1 <;> simp at hd
        subst hdds
        rw [List.cons_append] at hspan2
        have hd : d.isDigit = true := hdig d (List.mem_cons_self d ds2)
        split at heqsgn
        · rename_i s r3
          split at heqsgn
          · rename_i hs
            rw [Prod.mk.injEq] at heqsgn
            rw [← heqsgn.1]
            have harr : (c0 :: [s] ++ d :: ds2) ++ tail = c0 :: s :: (d :: (ds2 ++ tail)) := by simp
            rw [harr]
            rcases hce with h0 | h0 <;> subst h0 <;>
              rcases hs with h1 | h1 <;> subst h1 <;>
                simp [parseNumberLit.parseExp, hspan2.1, hspan2.2, hd]
          · rename_i hs
            rw [Prod.mk.injEq] at heqsgn
            rw [← heqsgn.1]
            have harr : (c0 :: [] ++ d :: ds2) ++ tail = c0 :: (d :: (ds2 ++ tail)) := by simp
            rw [harr]
            rcases hce with h0 | h0 <;> subst h0 <;>
              simp [parseNumberLit.parseExp, hdpm, hspan2.1, hspan2.2, hd]
        · rw [Prod.mk.injEq] at heqsgn
          rw [← heqsgn.2] at heqspan
          simp at heqspan
    · exact hempty _ _ h
  · exact hempty _ _ h

theorem parseFrac_replay (a frac b tail : List Char)
    (h : parseNumberLit.parseFrac a = (frac, b))
    (htail : ∀ c, tail.head? = some c → c.isDigit = false ∧ c ≠ '.') :
    parseNumberLit.parseFrac (frac ++ tail) = (frac, tail) := by
  have hnodot : parseNumberLit.parseFrac tail = ([], tail) :=
    parseFrac_nodot tail (fun c hc => (htail c hc).2)
  have hempty : ∀ x y : List Char, ([], x) = (frac, y) →
      parseNumberLit.parseFrac (frac ++ tail) = (frac, tail) := by
    intro x y hxy
    rw [Prod.mk.injEq] at hxy
    rw [← hxy.1, List.nil_append]
    exact hnodot
  unfold parseNumberLit.parseFrac at h
  split at h
  · rename_i rest0
    split at h
    rename_i px ds l2 heqspan
    split at h
    · exact hempty _ _ h
    · rename_i hds
      rw [Prod.mk.injEq] at h
      rw [← h.1]
      rw [List.span_eq_take_drop, Prod.mk.injEq] at heqspan
      have hdig : ∀ x ∈ ds, x.isDigit = true := by
        intro x hx
        rw [← heqspan.1] at hx
        exact List.mem_takeWhile_imp hx
      have hspan2 : List.span Char.isDigit (ds ++ tail) = (ds, tail) :=
        span_digits_append ds tail hdig (fun c hc => (htail c hc).1)
      rw [List.span_eq_take_drop, Prod.mk.injEq] at hspan2
      rw [List.cons_append]
      simp [parseNumberLit.parseFrac, hspan2.1, hspan2.2, hds]
  · exact hempty _ _ h

theorem exp_tail_facts (a ex l2 rest : List Char)
    (hexp : parseNumberLit.parseExp a = (ex, l2)) (hrest : sepOk rest = true) :
    ∀ c, (ex ++ rest).head? = some c → c.isDigit = false ∧ c ≠ '.' := by
  intro c hc
  cases ex with
  | nil =>
    rw [List.nil_append] at hc
    have := sepOk_facts rest hrest c hc
    exact ⟨this.1, this.2.1⟩
  | cons e t =>
    rw [List.cons_append, List.head?_cons, Option.some.injEq] at hc
    subst hc
    rcases parseExp_head a (e :: t) l2 hexp e rfl with h1 | h1 <;> subst h1 <;>
      exact ⟨by decide, by decide⟩

theorem frac_tail_notdigit (a frac l2 next : List Char)
    (hfrac : parseNumberLit.parseFrac a = (frac, l2))
    (hnext : ∀ c, next.head? = some c → c.isDigit = false) :
    ∀ c, (frac ++ next).head? = some c → c.isDigit = false := by
  intro c hc
  cases frac with
  | nil =>
    rw [List.nil_append] at hc
    exact hnext c hc
  | cons f t =>
    rw [List.cons_append, List.head?_cons, Option.some.injEq] at hc
    subst hc
    have hf := parseFrac_head a (f :: t) l2 hfrac f rfl
    subst hf
    decide

theorem pnl_replay (l t r rest : List Char)
    (h : parseNumberLit l = some (t, r))
    (hrest : sepOk rest = true) :
    parseNumberLit (t ++ rest) = some (t, rest) := by
  unfold parseNumberLit at h
  split at h
  rename_i ps sign l1 heqsign
  split at h
  · simp at h
  · rename_i c rest1
    split at h
    · -- integer part "0"
      rename_i hc0
      split at h
      rename_i pf frac l2 heqfrac
      split at h
      rename_i pe ex l3 heqexp
      simp only [Option.some.injEq, Prod.mk.injEq] at h
      rw [← h.1]
      subst hc0
      have hfr : parseNumberLit.parseFrac (frac ++ (ex ++ rest)) = (frac, ex ++ rest) :=
        parseFrac_replay rest1 frac l2 (ex ++ rest) heqfrac
          (exp_tail_facts l2 ex l3 rest heqexp hrest)
      have hex : parseNumberLit.parseExp (ex ++ rest) = (ex, rest) :=
        parseExp_replay l2 ex l3 rest heqexp
          (fun c2 hc2 => ⟨(sepOk_facts rest hrest c2 hc2).1,
            (sepOk_facts rest hrest c2 hc2).2.2.1, (sepOk_facts rest hrest c2 hc2).2.2.2.1⟩)
      split at heqsign
      · rename_i cs
        rw [Prod.mk.injEq] at heqsign
        rw [← heqsign.1]
        have harr : (['-'] ++ ['0'] ++ frac ++ ex) ++ rest =
            '-' :: '0' :: (frac ++ (ex ++ rest)) := by simp
        rw [harr]
        simp [parseNumberLit, hfr, hex]
      · rw [Prod.mk.injEq] at heqsign
        rw [← heqsign.1]
        have harr : (([] : List Char) ++ ['0'] ++ frac ++ ex) ++ rest =
            '0' :: (frac ++ (ex ++ rest)) := by simp
        rw [harr]
        simp [parseNumberLit, hfr, hex]
    · -- integer part: nonzero leading digit
      rename_i hc0
      split at h
      · rename_i hcd
        split at h
        rename_i pd ds l2 heqds
        split at h
        rename_i pf frac l3 heqfrac
        split at h
        rename_i pe ex l4 heqexp
        simp only [Option.some.injEq, Prod.mk.injEq] at h
        rw [← h.1]
        rw [List.span_eq_take_drop, Prod.mk.injEq] at heqds
        have hds_cons : ds = c :: List.takeWhile Char.isDigit rest1 := by
          rw [← heqds.1, List.takeWhile_cons, if_pos hcd]
        have hl2 : l2 = List.dropWhile Char.isDigit rest1 := by
          rw [← heqds.2, List.dropWhile_cons, hcd]
          simp
        have hdig2 : ∀ x ∈ List.takeWhile Char.isDigit rest1, x.isDigit = true :=
          fun x hx => List.mem_takeWhile_imp hx
        have hnd : ∀ c2, (frac ++ (ex ++ rest)).head? = some c2 → c2.isDigit = false :=
          frac_tail_notdigit l2 frac l3 (ex ++ rest) heqfrac
            (fun c2 hc2 => (exp_tail_facts l3 ex l4 rest heqexp hrest c2 hc2).1)
        have hspan2 := span_digits_append (List.takeWhile Char.isDigit rest1)
          (frac ++ (ex ++ rest)) hdig2 hnd
        rw [List.span_eq_take_drop, Prod.mk.injEq] at hspan2
        have hfr : parseNumberLit.parseFrac (frac ++ (ex ++ rest)) = (frac, ex ++ rest) :=
          parseFrac_replay l2 frac l3 (ex ++ rest) heqfrac
            (exp_tail_facts l3 ex l4 rest heqexp hrest)
        have hex : parseNumberLit.parseExp (ex ++ rest) = (ex, rest) :=
          parseExp_replay l3 ex l4 rest heqexp
            (fun c2 hc2 => ⟨(sepOk_facts rest hrest c2 hc2).1,
              (sepOk_facts rest hrest c2 hc2).2.2.1, (sepOk_facts rest hrest c2 hc2).2.2.2.1⟩)
        rw [hds_cons]
        split at heqsign
        · rename_i cs
          rw [Prod.mk.injEq] at heqsign
          rw [← heqsign.1]
          have harr : (['-'] ++ (c :: List.takeWhile Char.isDigit rest1) ++ frac ++ ex) ++ rest =
              '-' :: c :: (List.takeWhile Char.isDigit rest1 ++ (frac ++ (ex ++ rest))) := by simp
          rw [harr]
          simp [parseNumberLit, hc0, hcd, hspan2.1, hspan2.2, hfr, hex,
            List.takeWhile_cons, List.dropWhile_cons]
        · rename_i hno
          rw [Prod.mk.injEq] at heqsign
          rw [← heqsign.1]
          have hcm : ¬c = '-' := by
            intro he
            have hd2 : ('-').isDigit = true := he ▸ hcd
            simp at hd2
          have harr : (([] : List Char) ++ (c :: List.takeWhile Char.isDigit rest1) ++ frac ++ ex) ++ rest =
              c :: (List.takeWhile Char.isDigit rest1 ++ (frac ++ (ex ++ rest))) := by simp
          rw [harr]
          unfold parseNumberLit
          split
          rename_i p3 sign3 l13 heq2
          split at heq2
          · rename_i cs3 hscrut
            injection hscrut with h1 h2
            exact absurd h1 hcm
          · rw [Prod.mk.injEq] at heq2
            rw [← heq2.1, ← heq2.2]
            simp [hc0, hcd, hspan2.1, hspan2.2, hfr, hex,
              List.takeWhile_cons, List.dropWhile_cons]
      · simp at h

theorem pnl_head (l t r : List Char) (h : parseNumberLit l = some (t, r)) :
    ∃ c cs, t = c :: cs ∧ (c = '-' ∨ c.isDigit = true) := by
  unfold parseNumberLit at h
  split at h
  rename_i ps sign l1 heqsign
  split at h
  · simp at h
  · rename_i c rest1
    split at h
    · rename_i hc0
      split at h
      rename_i pf frac l2 heqfrac
      split at h
      rename_i pe ex l3 heqexp
      simp only [Option.some.injEq, Prod.mk.injEq] at h
      split at heqsign
      · rename_i cs
        rw [Prod.mk.injEq] at heqsign
        rw [← h.1, ← heqsign.1]
        exact ⟨'-', '0' :: (frac ++ ex), by simp, Or.inl rfl⟩
      · rw [Prod.mk.injEq] at heqsign
        rw [← h.1, ← heqsign.1]
        exact ⟨'0', frac ++ ex, by simp, Or.inr (by decide)⟩
    · rename_i hc0
      split at h
      · rename_i hcd
        split at h
        rename_i pd ds l2 heqds
        split at h
        rename_i pf frac l3 heqfrac
        split at h
        rename_i pe ex l4 heqexp
        simp only [Option.some.injEq, Prod.mk.injEq] at h
        rw [List.span_eq_take_drop, Prod.mk.injEq] at heqds
        have hds_cons : ds = c :: List.takeWhile Char.isDigit rest1 := by
          rw [← heqds.1, List.takeWhile_cons, if_pos hcd]
        split at heqsign
        · rename_i cs
          rw [Prod.mk.injEq] at heqsign
          rw [← h.1, ← heqsign.1]
          exact ⟨'-', ds ++ frac ++ ex, by simp, Or.inl rfl⟩
        · rw [Prod.mk.injEq] at heqsign
          rw [← h.1, ← heqsign.1, hds_cons]
          exact ⟨c, List.takeWhile Char.isDigit rest1 ++ frac ++ ex, by simp, Or.inr hcd⟩
      · simp at h

theorem hexVal_hexDig (n : Nat) (h : n < 16) : hexVal (hexDig n) = some n := by
  interval_cases n <;> decide

theorem escBody_parses (l : List Char) : ∀ fuel rest, l.length + 1 ≤ fuel →
    parseStringBody fuel ((l.map escChar).flatten ++ '"' :: rest) = some (⟨l⟩, rest) := by
  induction l with
  | nil =>
    intro fuel rest hf
    cases fuel with
    | zero => omega
    | succ f => simp [parseStringBody]
  | cons c l2 IH =>
    intro fuel rest hf
    cases fuel with
    | zero => omega
    | succ f =>
      have hf2 : l2.length + 1 ≤ f := by
        simp only [List.length_cons] at hf
        omega
      have IH2 := IH f rest hf2
      simp only [List.map_cons, List.flatten_cons, List.append_assoc]
      by_cases h1 : c = '"'
      · subst h1
        simp [escChar, parseStringBody, IH2]
      by_cases h2 : c = '\\'
      · subst h2
        simp [escChar, parseStringBody, IH2]
      by_cases h3 : c = '\n'
      · subst h3
        simp [escChar, parseStringBody, IH2]
      by_cases h4 : c = '\r'
      · subst h4
        simp [escChar, parseStringBody, IH2]
      by_cases h5 : c = '\t'
      · subst h5
        simp [escChar, parseStringBody, IH2]
      by_cases h6 : c = '\x08'
      · subst h6
        simp [escChar, parseStringBody, IH2]
      by_cases h7 : c = '\x0c'
      · subst h7
        simp [escChar, parseStringBody, IH2]
      by_cases h8 : c.toNat < 0x20
      · have hhi : hexVal (hexDig (c.toNat / 16)) = some (c.toNat / 16) :=
          hexVal_hexDig _ (by omega)
        have hlo : hexVal (hexDig (c.toNat % 16)) = some (c.toNat % 16) :=
          hexVal_hexDig _ (by omega)
        have h00 : hexVal '0' = some 0 := by decide
        have hn : c.toNat / 16 * 16 + c.toNat % 16 = c.toNat := by omega
        have hv : (c.toNat).isValidChar := Or.inl (by omega)
        simp [escChar, h1, h2, h3, h4, h5, h6, h7, h8, parseStringBody,
          h00, hhi, hlo, hn, hv, IH2]
      · simp [escChar, h1, h2, h3, h4, h5, h6, h7, h8, parseStringBody, IH2]

theorem escChar_len (c : Char) : 1 ≤ (escChar c).length := by
  unfold escChar
  split_ifs <;> simp

theorem flat_len (l : List Char) : l.length ≤ ((l.map escChar).flatten).length := by
  induction l with
  | nil => simp
  | cons c t IH =>
    simp only [List.map_cons, List.flatten_cons, List.length_append, List.length_cons]
    have := escChar_len c
    omega

theorem digit_facts (c : Char) (h : c.isDigit = true) :
    jsWs c = false ∧ c ≠ ']' ∧ c ≠ '\x7d' ∧ c ≠ 'n' ∧ c ≠ 't' ∧ c ≠ 'f' ∧
      c ≠ '"' ∧ c ≠ '[' ∧ c ≠ '\x7b' := by
  refine ⟨?_, digit_ne c ']' h (by decide), digit_ne c '\x7d' h (by decide),
    digit_ne c 'n' h (by decide), digit_ne c 't' h (by decide), digit_ne c 'f' h (by decide),
    digit_ne c '"' h (by decide), digit_ne c '[' h (by decide), digit_ne c '\x7b' h (by decide)⟩
  simp [jsWs, digit_ne c ' ' h (by decide), digit_ne c '\t' h (by decide),
    digit_ne c '\n' h (by decide), digit_ne c '\r' h (by decide),
    digit_ne c '\x0b' h (by decide), digit_ne c '\x0c' h (by decide),
    digit_ne c '\u00A0' h (by decide)]

theorem stringify_head (j : Json) (hwf : numWfJson j = true) :
    ∃ c cs, (stringify j).data = c :: cs ∧ jsWs c = false ∧ c ≠ ']' ∧ c ≠ '\x7d' := by
  cases j with
  | null => exact ⟨'n', ['u', 'l', 'l'], rfl, by decide, by decide, by decide⟩
  | bool b =>
    cases b with
    | true => exact ⟨'t', ['r', 'u', 'e'], rfl, by decide, by decide, by decide⟩
    | false => exact ⟨'f', ['a', 'l', 's', 'e'], rfl, by decide, by decide, by decide⟩
  | num lit =>
    have hok : parseNumberLit lit.data = some (lit.data, []) := by
      simp only [numWfJson, numLitOk, decide_eq_true_eq] at hwf
      exact hwf
    obtain ⟨c0, cs, hcons, hor⟩ := pnl_head lit.data lit.data [] hok
    refine ⟨c0, cs, hcons, ?_⟩
    rcases hor with h0 | h0
    · subst h0
      exact ⟨by decide, by decide, by decide⟩
    · obtain ⟨hw, h1, h2, _⟩ := digit_facts c0 h0
      exact ⟨hw, h1, h2⟩
  | str s =>
    exact ⟨'"', (s.data.map escChar).flatten ++ ['"'], rfl, by decide, by decide, by decide⟩
  | arr xs =>
    exact ⟨'[', (stringifyElems xs).data ++ [']'], rfl, by decide, by decide, by decide⟩
  | obj fs =>
    exact ⟨'\x7b', (stringifyFields fs).data ++ ['\x7d'], rfl, by decide, by decide, by decide⟩

theorem stringifyElems_head (x : Json) (xs2 : List Json) (hx : numWfJson x = true) :
    ∃ c cs, (stringifyElems (x :: xs2)).data = c :: cs ∧ jsWs c = false ∧ c ≠ ']' ∧ c ≠ '\x7d' := by
  obtain ⟨c0, cs0, hc0, hfacts⟩ := stringify_head x hx
  cases xs2 with
  | nil => exact ⟨c0, cs0, hc0, hfacts⟩
  | cons y t =>
    refine ⟨c0, cs0 ++ ',' :: (stringifyElems (y :: t)).data, ?_, hfacts⟩
    show ((stringify x).data ++ [',']) ++ (stringifyElems (y :: t)).data = _
    rw [hc0]
    simp

theorem stringifyFields_head (k : String) (v : Json) (fs2 : List (String × Json)) :
    ∃ cs, (stringifyFields ((k, v) :: fs2)).data = '"' :: cs := by
  cases fs2 with
  | nil => exact ⟨_, rfl⟩
  | cons g t => exact ⟨_, rfl⟩

theorem insertField_wf (fs : List (String × Json)) (k : String) (v : Json)
    (hfs : numWfFields fs = true) (hv : numWfJson v = true) :
    numWfFields (insertField fs k v) = true := by
  induction fs with
  | nil => simp [insertField, numWfFields, numWfElems, hv]
  | cons p rest IH =>
    obtain ⟨k0, v0⟩ := p
    simp only [numWfFields, Bool.and_eq_true] at hfs
    unfold insertField
    split
    · simp [numWfFields, hv, hfs.2]
    · simp [numWfFields, hfs.1, IH hfs.2]

mutual

theorem print_parse_val (j : Json) : ∀ fuel rest, numWfJson j = true → sepOk rest = true →
    (stringify j).data.length + 1 ≤ fuel →
    ∃ v, parseVal fuel ((stringify j).data ++ rest) = some (v, rest) := by
  cases j with
  | null =>
    intro fuel rest _ _ hfuel
    cases fuel with
    | zero => omega
    | succ f =>
      refine ⟨Json.null, ?_⟩
      show parseVal (f + 1) ('n' :: 'u' :: 'l' :: 'l' :: rest) = some (Json.null, rest)
      simp [parseVal, skipWs, jsWs]
  | bool b =>
    intro fuel rest _ _ hfuel
    cases fuel with
    | zero => omega
    | succ f =>
      cases b with
      | true =>
        refine ⟨Json.bool true, ?_⟩
        show parseVal (f + 1) ('t' :: 'r' :: 'u' :: 'e' :: rest) = some (Json.bool true, rest)
        simp [parseVal, skipWs, jsWs]
      | false =>
        refine ⟨Json.bool false, ?_⟩
        show parseVal (f + 1) ('f' :: 'a' :: 'l' :: 's' :: 'e' :: rest) = some (Json.bool false, rest)
        simp [parseVal, skipWs, jsWs]
  | num lit =>
    intro fuel rest hwf hsep hfuel
    cases fuel with
    | zero => omega
    | succ f =>
      have hok : parseNumberLit lit.data = some (lit.data, []) := by
        simp only [numWfJson, numLitOk, decide_eq_true_eq] at hwf
        exact hwf
      obtain ⟨c0, cs, hcons, hor⟩ := pnl_head lit.data lit.data [] hok
      have hrepl : parseNumberLit (lit.data ++ rest) = some (lit.data, rest) :=
        pnl_replay lit.data lit.data [] rest hok hsep
      have harg : c0 :: (cs ++ rest) = lit.data ++ rest := by rw [hcons]; rfl
      refine ⟨Json.num lit, ?_⟩
      show parseVal (f + 1) (lit.data ++ rest) = some (Json.num lit, rest)
      rcases hor with h0 | h0
      · subst h0
        have hsw : skipWs (lit.data ++ rest) = '-' :: (cs ++ rest) := by
          rw [hcons, List.cons_append]
          exact dropWhile_noop _ _ (by intro c2 hc2; simp at hc2; subst hc2; decide)
        have hrepl2 : parseNumberLit ('-' :: (cs ++ rest)) = some (lit.data, rest) := by
          rw [harg]; exact hrepl
        simp [parseVal, hsw, hrepl2]
      · obtain ⟨hw, _, _, hn, ht, hf2, hq, hb1, hb2⟩ := digit_facts c0 h0
        have hsw : skipWs (lit.data ++ rest) = c0 :: (cs ++ rest) := by
          rw [hcons, List.cons_append]
          exact dropWhile_noop _ _ (by intro c2 hc2; simp at hc2; subst hc2; exact hw)
        have hrepl2 : parseNumberLit (c0 :: (cs ++ rest)) = some (lit.data, rest) := by
          rw [harg]; exact hrepl
        simp [parseVal, hsw, hn, ht, hf2, hq, hb1, hb2, h0, hrepl2]
  | str s =>
    intro fuel rest hwf hsep hfuel
    cases fuel with
    | zero => omega
    | succ f =>
      have hfl := flat_len s.data
      have hlen : (stringify (Json.str s)).data.length =
          ((s.data.map escChar).flatten).length + 2 := by
        show ('"' :: ((s.data.map escChar).flatten ++ ['"'])).length = _
        simp
      have hfuel2 : s.data.length + 1 ≤ f + 1 := by omega
      have hbody := escBody_parses s.data (f + 1) rest hfuel2
      refine ⟨Json.str s, ?_⟩
      show parseVal (f + 1) ('"' :: (((s.data.map escChar).flatten ++ ['"']) ++ rest)) =
        some (Json.str s, rest)
      have harr : ((s.data.map escChar).flatten ++ ['"']) ++ rest =
          (s.data.map escChar).flatten ++ '"' :: rest := by simp
      rw [harr]
      simp [parseVal, skipWs, jsWs, hbody]
  | arr xs =>
    intro fuel rest hwf hsep hfuel
    cases fuel with
    | zero => omega
    | succ f =>
      cases xs with
      | nil =>
        refine ⟨Json.arr [], ?_⟩
        show parseVal (f + 1) ('[' :: ']' :: rest) = some (Json.arr [], rest)
        simp [parseVal, skipWs, jsWs]
      | cons x xs2 =>
        have hwfe : numWfElems (x :: xs2) = true := by
          simpa [numWfJson] using hwf
        have hx : numWfJson x = true := by
          have h2 := hwfe
          simp only [numWfElems, Bool.and_eq_true] at h2
          exact h2.1
        have hlen : (stringify (Json.arr (x :: xs2))).data.length =
            (stringifyElems (x :: xs2)).data.length + 2 := by
          show ('[' :: ((stringifyElems (x :: xs2)).data ++ [']'])).length = _
          simp
        have hfe : (stringifyElems (x :: xs2)).data.length + 2 ≤ f := by omega
        obtain ⟨vs, hvs⟩ := print_parse_elems (x :: xs2) f rest (by simp) hwfe hfe
        obtain ⟨c0, cs0, hc0, hw0, hb1, hb2⟩ := stringifyElems_head x xs2 hx
        refine ⟨Json.arr vs, ?_⟩
        show parseVal (f + 1)
            ('[' :: (((stringifyElems (x :: xs2)).data ++ [']']) ++ rest)) =
          some (Json.arr vs, rest)
        have harr : ((stringifyElems (x :: xs2)).data ++ [']']) ++ rest =
            (stringifyElems (x :: xs2)).data ++ ']' :: rest := by simp
        rw [harr]
        have hvs2 : parseElems f (c0 :: (cs0 ++ ']' :: rest)) = some (vs, rest) := by
          rw [← List.cons_append, ← hc0]
          exact hvs
        have hsw1 : skipWs ('[' :: ((stringifyElems (x :: xs2)).data ++ ']' :: rest)) =
            '[' :: ((stringifyElems (x :: xs2)).data ++ ']' :: rest) :=
          dropWhile_noop _ _ (by intro c2 hc2; simp at hc2; subst hc2; decide)
        have hsw2 : skipWs ((stringifyElems (x :: xs2)).data ++ ']' :: rest) =
            c0 :: (cs0 ++ ']' :: rest) := by
          rw [hc0, List.cons_append]
          exact dropWhile_noop _ _ (by intro c2 hc2; simp at hc2; subst hc2; exact hw0)
        simp [parseVal, hsw1, hsw2]
        split
        · rename_i r2 heqm
          injection heqm with he1 he2
          exact absurd he1 hb1
        · simp [hvs2]
  | obj fs =>
    intro fuel rest hwf hsep hfuel
    cases fuel with
    | zero => omega
    | succ f =>
      cases fs with
      | nil =>
        refine ⟨Json.obj [], ?_⟩
        show parseVal (f + 1) ('\x7b' :: '\x7d' :: rest) = some (Json.obj [], rest)
        simp [parseVal, skipWs, jsWs]
      | cons g fs2 =>
        obtain ⟨k, v⟩ := g
        have hwff : numWfFields ((k, v) :: fs2) = true := by
          simpa [numWfJson] using hwf
        have hlen : (stringify (Json.obj ((k, v) :: fs2))).data.length =
            (stringifyFields ((k, v) :: fs2)).data.length + 2 := by
          show ('\x7b' :: ((stringifyFields ((k, v) :: fs2)).data ++ ['\x7d'])).length = _
          simp
        have hff : (stringifyFields ((k, v) :: fs2)).data.length + 2 ≤ f := by omega
        obtain ⟨gs, hgs⟩ := print_parse_fields ((k, v) :: fs2) [] f rest (by simp) hwff hff
        obtain ⟨cs0, hc0⟩ := stringifyFields_head k v fs2
        refine ⟨Json.obj gs, ?_⟩
        show parseVal (f + 1)
            ('\x7b' :: (((stringifyFields ((k, v) :: fs2)).data ++ ['\x7d']) ++ rest)) =
          some (Json.obj gs, rest)
        have harr : ((stringifyFields ((k, v) :: fs2)).data ++ ['\x7d']) ++ rest =
            (stringifyFields ((k, v) :: fs2)).data ++ '\x7d' :: rest := by simp
        rw [harr]
        have hgs2 : parseFields f [] ('"' :: (cs0 ++ '\x7d' :: rest)) = some (gs, rest) := by
          rw [← List.cons_append, ← hc0]
          exact hgs
        have hsw1 : skipWs ('\x7b' :: ((stringifyFields ((k, v) :: fs2)).data ++ '\x7d' :: rest)) =
            '\x7b' :: ((stringifyFields ((k, v) :: fs2)).data ++ '\x7d' :: rest) :=
          dropWhile_noop _ _ (by intro c2 hc2; simp at hc2; subst hc2; decide)
        have hsw2 : skipWs ((stringifyFields ((k, v) :: fs2)).data ++ '\x7d' :: rest) =
            '"' :: (cs0 ++ '\x7d' :: rest) := by
          rw [hc0, List.cons_append]
          exact dropWhile_noop _ _ (by intro c2 hc2; simp at hc2; subst hc2; decide)
        simp [parseVal, hsw1, hsw2]
        exact hgs2

theorem print_parse_elems (xs : List Json) : ∀ fuel rest, xs ≠ [] → numWfElems xs = true →
    (stringifyElems xs).data.length + 2 ≤ fuel →
    ∃ vs, parseElems fuel ((stringifyElems xs).data ++ ']' :: rest) = some (vs, rest) := by
  cases xs with
  | nil => intro fuel rest hne _ _; exact absurd rfl hne
  | cons x xs2 =>
    intro fuel rest _ hwf hfuel
    have hx : numWfJson x = true := by
      have h2 := hwf
      simp only [numWfElems, Bool.and_eq_true] at h2
      exact h2.1
    cases fuel with
    | zero => omega
    | succ f =>
      cases xs2 with
      | nil =>
        have hlen1 : (stringify x).data.length + 1 ≤ f := by
          have heq : (stringifyElems [x]).data.length = (stringify x).data.length := rfl
          omega
        obtain ⟨v, hv⟩ := print_parse_val x f (']' :: rest) hx (by simp [sepOk]) hlen1
        refine ⟨[v], ?_⟩
        show parseElems (f + 1) ((stringify x).data ++ ']' :: rest) = some ([v], rest)
        simp [parseElems, hv, skipWs, jsWs]
      | cons y t =>
        have hwft : numWfElems (y :: t) = true := by
          have h2 := hwf
          simp only [numWfElems, Bool.and_eq_true] at h2 ⊢
          exact h2.2
        have heq : (stringifyElems (x :: y :: t)).data.length =
            (stringify x).data.length + 1 + (stringifyElems (y :: t)).data.length := by
          show (((stringify x).data ++ [',']) ++ (stringifyElems (y :: t)).data).length = _
          simp
          omega
        have hlen1 : (stringify x).data.length + 1 ≤ f := by omega
        have hlen2 : (stringifyElems (y :: t)).data.length + 2 ≤ f := by omega
        obtain ⟨v, hv⟩ := print_parse_val x f
          (',' :: ((stringifyElems (y :: t)).data ++ ']' :: rest)) hx (by simp [sepOk]) hlen1
        obtain ⟨vs, hvs⟩ := print_parse_elems (y :: t) f rest (by simp) hwft hlen2
        refine ⟨v :: vs, ?_⟩
        show parseElems (f + 1)
            ((((stringify x).data ++ [',']) ++ (stringifyElems (y :: t)).data) ++ ']' :: rest) =
          some (v :: vs, rest)
        have harr : (((stringify x).data ++ [',']) ++ (stringifyElems (y :: t)).data) ++ ']' :: rest =
            (stringify x).data ++ ',' :: ((stringifyElems (y :: t)).data ++ ']' :: rest) := by
          simp
        rw [harr]
        simp [parseElems, hv, skipWs, jsWs, hvs]

theorem print_parse_fields (fs : List (String × Json)) :
    ∀ acc fuel rest, fs ≠ [] → numWfFields fs = true →
    (stringifyFields fs).data.length + 2 ≤ fuel →
    ∃ gs, parseFields fuel acc ((stringifyFields fs).data ++ '\x7d' :: rest) = some (gs, rest) := by
  cases fs with
  | nil => intro acc fuel rest hne _ _; exact absurd rfl hne
  | cons g fs2 =>
    obtain ⟨k, v⟩ := g
    intro acc fuel rest _ hwf hfuel
    have hv : numWfJson v = true := by
      have h2 := hwf
      simp only [numWfFields, Bool.and_eq_true] at h2
      exact h2.1
    have hkfl := flat_len k.data
    cases fuel with
    | zero => omega
    | succ f =>
      cases fs2 with
      | nil =>
        have heq : (stringifyFields [(k, v)]).data.length =
            ((k.data.map escChar).flatten).length + 2 + 1 + (stringify v).data.length := by
          show ((('"' :: ((k.data.map escChar).flatten ++ ['"'])) ++ [':']) ++
            (stringify v).data).length = _
          simp
          omega
        have hklen : k.data.length + 1 ≤ f + 1 := by omega
        have hvlen : (stringify v).data.length + 1 ≤ f := by omega
        have hkey := escBody_parses k.data (f + 1)
          (':' :: ((stringify v).data ++ '\x7d' :: rest)) hklen
        obtain ⟨w, hw⟩ := print_parse_val v f ('\x7d' :: rest) hv (by simp [sepOk]) hvlen
        refine ⟨insertField acc k w, ?_⟩
        show parseFields (f + 1) acc
            (((('"' :: ((k.data.map escChar).flatten ++ ['"'])) ++ [':']) ++
              (stringify v).data) ++ '\x7d' :: rest) = some (insertField acc k w, rest)
        have harr : (((('"' :: ((k.data.map escChar).flatten ++ ['"'])) ++ [':']) ++
              (stringify v).data) ++ '\x7d' :: rest) =
            '"' :: ((k.data.map escChar).flatten ++
              '"' :: (':' :: ((stringify v).data ++ '\x7d' :: rest))) := by
          simp
        rw [harr]
        simp [parseFields, skipWs, jsWs, hkey, hw]
      | cons g2 t2 =>
        have hwft : numWfFields (g2 :: t2) = true := by
          have h2 := hwf
          simp only [numWfFields, Bool.and_eq_true] at h2 ⊢
          exact h2.2
        have heq : (stringifyFields ((k, v) :: g2 :: t2)).data.length =
            ((k.data.map escChar).flatten).length + 2 + 1 + (stringify v).data.length + 1 +
              (stringifyFields (g2 :: t2)).data.length := by
          show (((((('"' :: ((k.data.map escChar).flatten ++ ['"'])) ++ [':']) ++
            (stringify v).data) ++ [',']) ++ (stringifyFields (g2 :: t2)).data).length) = _
          simp
          omega
        have hklen : k.data.length + 1 ≤ f + 1 := by omega
        have hvlen : (stringify v).data.length + 1 ≤ f := by omega
        have htlen : (stringifyFields (g2 :: t2)).data.length + 2 ≤ f := by omega
        have hkey := escBody_parses k.data (f + 1)
          (':' :: ((stringify v).data ++
            ',' :: ((stringifyFields (g2 :: t2)).data ++ '\x7d' :: rest))) hklen
        obtain ⟨w, hw⟩ := print_parse_val v f
          (',' :: ((stringifyFields (g2 :: t2)).data ++ '\x7d' :: rest)) hv (by simp [sepOk]) hvlen
        obtain ⟨gs, hgs⟩ := print_parse_fields (g2 :: t2) (insertField acc k w) f rest
          (by simp) hwft htlen
        refine ⟨gs, ?_⟩
        show parseFields (f + 1) acc
            ((((((('"' :: ((k.data.map escChar).flatten ++ ['"'])) ++ [':']) ++
              (stringify v).data) ++ [',']) ++ (stringifyFields (g2 :: t2)).data)) ++
                '\x7d' :: rest) = some (gs, rest)
        have harr : (((((('"' :: ((k.data.map escChar).flatten ++ ['"'])) ++ [':']) ++
              (stringify v).data) ++ [',']) ++ (stringifyFields (g2 :: t2)).data)) ++
                '\x7d' :: rest =
            '"' :: ((k.data.map escChar).flatten ++
              '"' :: (':' :: ((stringify v).data ++
                ',' :: ((stringifyFields (g2 :: t2)).data ++ '\x7d' :: rest)))) := by
          simp
        rw [harr]
        simp [parseFields, skipWs, jsWs, hkey, hw, hgs]

end

theorem parse_wf : ∀ fuel,
    (∀ l j r, parseVal fuel l = some (j, r) → numWfJson j = true) ∧
    (∀ l vs r, parseElems fuel l = some (vs, r) → numWfElems vs = true) ∧
    (∀ acc l gs r, numWfFields acc = true → parseFields fuel acc l = some (gs, r) →
      numWfFields gs = true) := by
  intro fuel
  induction fuel with
  | zero =>
    refine ⟨?_, ?_, ?_⟩
    · intro l j r h
      simp [parseVal] at h
    · intro l vs r h
      simp [parseElems] at h
    · intro acc l gs r hacc h
      simp [parseFields] at h
  | succ f IH =>
    obtain ⟨IHv, IHe, IHf⟩ := IH
    refine ⟨?_, ?_, ?_⟩
    · intro l j r h
      simp only [parseVal] at h
      repeat' split at h
      all_goals try (exact absurd h (fun hh => Option.noConfusion hh))
      all_goals simp only [Option.map_eq_some', Option.some.injEq, Prod.mk.injEq] at h
      all_goals first
        | (rw [← h.1]; simp [numWfJson, numWfElems, numWfFields])
        | (obtain ⟨p, hp, hpe⟩ := h
           rw [← hpe.1]
           first
            | (simp only [numWfJson]; exact IHe _ _ _ hp)
            | (simp only [numWfJson]; exact IHf _ _ _ _ (by simp [numWfFields]) hp)
            | (have h2 := pnl_replay _ p.1 p.2 [] hp rfl
               rw [List.append_nil] at h2
               simp only [numWfJson, numLitOk]
               exact decide_eq_true h2)
            | simp [numWfJson])
    · intro l vs r h
      simp only [parseElems] at h
      split at h
      · exact absurd h (fun hh => Option.noConfusion hh)
      · rename_i v rest heqv
        split at h
        · rename_i r2 heqsw
          rw [Option.map_eq_some'] at h
          obtain ⟨p, hp, hpe⟩ := h
          rw [Prod.mk.injEq] at hpe
          rw [← hpe.1]
          simp only [numWfElems, Bool.and_eq_true]
          exact ⟨IHv _ _ _ heqv, IHe _ _ _ hp⟩
        · rename_i r2 heqsw
          simp only [Option.some.injEq, Prod.mk.injEq] at h
          rw [← h.1]
          simp only [numWfElems, Bool.and_eq_true]
          refine ⟨IHv _ _ _ heqv, ?_⟩
          simp [numWfElems]
        · exact absurd h (fun hh => Option.noConfusion hh)
    · intro acc l gs r hacc h
      simp only [parseFields] at h
      split at h
      · rename_i r1 heqsw1
        split at h
        · exact absurd h (fun hh => Option.noConfusion hh)
        · rename_i k r2 heqk
          split at h
          · rename_i r3 heqsw2
            split at h
            · exact absurd h (fun hh => Option.noConfusion hh)
            · rename_i v r4 heqv
              split at h
              · rename_i r5 heqsw3
                exact IHf _ _ _ _ (insertField_wf acc k v hacc (IHv _ _ _ heqv)) h
              · rename_i r5 heqsw3
                simp only [Option.some.injEq, Prod.mk.injEq] at h
                rw [← h.1]
                exact insertField_wf acc k v hacc (IHv _ _ _ heqv)
              · exact absurd h (fun hh => Option.noConfusion hh)
          · exact absurd h (fun hh => Option.noConfusion hh)
      · exact absurd h (fun hh => Option.noConfusion hh)

theorem parseChars_wf (l : List Char) (j : Json) (h : parseChars l = some j) :
    numWfJson j = true := by
  unfold parseChars at h
  split at h
  · rename_i v rest heqv
    split at h
    · simp only [Option.some.injEq] at h
      rw [← h]
      exact (parse_wf (l.length + 1)).1 _ _ _ heqv
    · exact absurd h (fun hh => Option.noConfusion hh)
  · exact absurd h (fun hh => Option.noConfusion hh)

theorem reparse_ok (j : Json) (hwf : numWfJson j = true) :
    (parseJson (stringify j)).isSome = true := by
  obtain ⟨v, hv⟩ := print_parse_val j ((stringify j).data.length + 1) [] hwf rfl (by omega)
  rw [List.append_nil] at hv
  unfold parseJson parseChars
  rw [hv]
  simp [skipWs]

theorem parseJson_reparse (s : String) (j : Json) (h : parseJson s = some j) :
    (parseJson (stringify j)).isSome = true :=
  reparse_ok j (parseChars_wf s.data j h)

theorem parseChars_reparse (l : List Char) (j : Json) (h : parseChars l = some j) :
    (parseJson (stringify j)).isSome = true :=
  reparse_ok j (parseChars_wf l j h)

theorem analyzeUpstream_200 (f : FetchResult) (r : HandlerResponse)
    (h : analyzeUpstream f = r) (h2 : r.statusCode = 200) :
    ∃ w data t j, f = .response true w ∧ parseJson w = some data ∧
      replyText data "trim" = .ok t ∧ analyzeRecover t = some j ∧
      r.body = stringify j ∧ (parseJson r.body).isSome = true := by
  unfold analyzeUpstream at h
  split at h
  · rw [← h] at h2; simp at h2
  · rename_i ok text
    split at h
    · rename_i hok
      split at h
      · rw [← h] at h2; simp at h2
      · rename_i data hdata
        split at h
        · rw [← h] at h2; simp at h2
        · rename_i t0 ht0
          split at h
          · rw [← h] at h2; simp at h2
          · rename_i parsed hparsed
            refine ⟨text, data, t0, parsed, ?_, hdata, ht0, hparsed, ?_, ?_⟩
            · rw [hok]
            · rw [← h]
            · rw [← h]
              exact parseJson_reparse _ _ hparsed
    · rw [← h] at h2; simp at h2

theorem part000Upstream_200 (sdk : SdkResult) (r : HandlerResponse)
    (h : part000Upstream sdk = r) (h2 : r.statusCode = 200) :
    ∃ data t span j, sdk = .reply data ∧ replyText data "replace" = .ok t ∧
      braceSpan (part000Clean t).data = some span ∧ parseChars span = some j ∧
      r.body = stringify j ∧ (parseJson r.body).isSome = true := by
  unfold part000Upstream at h
  split at h
  · rw [← h] at h2; simp at h2
  · rename_i data
    split at h
    · rw [← h] at h2; simp at h2
    · rename_i raw hraw
      split at h
      · rw [← h] at h2; simp at h2
      · rename_i span hspan
        split at h
        · rw [← h] at h2; simp at h2
        · rename_i analysis hana
          refine ⟨data, raw, span, analysis, rfl, hraw, hspan, hana, ?_, ?_⟩
          · rw [← h]
          · rw [← h]
            exact parseChars_reparse _ _ hana

theorem analyzeRun_200 (env : Option String) (f : FetchResult) (e : Event)
    (r : HandlerResponse)
    (h1 : (analyzeRun env f e).outcome = .ok r) (h2 : r.statusCode = 200) :
    ∃ w data t j, f = .response true w ∧ parseJson w = some data ∧
      replyText data "trim" = .ok t ∧ analyzeRecover t = some j ∧
      r.body = stringify j ∧ (parseJson r.body).isSome = true := by
  unfold analyzeRun at h1
  repeat' split at h1
  all_goals simp at h1
  all_goals (subst h1; try simp_all)
  obtain ⟨w, data, t, j, ha, hb, hc, hd, he, hf⟩ := analyzeUpstream_200 f _ rfl h2
  exact ⟨w, ha, data, hb, t, hc, j, hd, he, hf⟩

theorem part000Run_200 (env : Option String) (sdk : SdkResult) (e : Event)
    (r : HandlerResponse)
    (h1 : (part000Run env sdk e).outcome = .ok r) (h2 : r.statusCode = 200) :
    ∃ data t span j, sdk = .reply data ∧ replyText data "replace" = .ok t ∧
      braceSpan (part000Clean t).data = some span ∧ parseChars span = some j ∧
      r.body = stringify j ∧ (parseJson r.body).isSome = true := by
  unfold part000Run at h1
  repeat' split at h1
  all_goals simp at h1
  all_goals (subst h1; try simp_all)
  obtain ⟨data, t, span, j, ha, hb, hc, hd, he, hf⟩ := part000Upstream_200 sdk _ rfl h2
  exact ⟨data, ha, t, hb, span, hc, j, hd, he, hf⟩

/-- Claim C1 (corrected).  As stated — "for every success response the
body matches the AnalysisResult shape at the top level (an object with
`ingredients` an array when present)" — the claim fails: neither
handler validates the parsed value.  What holds: every success (200)
body of either handler is valid JSON (it parses back under
`JSON.parse`), and it is exactly the serialization of the JSON value
the normalizer recovered from the upstream reply. -/
theorem claim_C1 (env : Option String) (f : FetchResult) (sdk : SdkResult) (e : Event) :
    (∀ r, (analyzeRun env f e).outcome = .ok r → r.statusCode = 200 →
      (parseJson r.body).isSome = true ∧
      ∃ w data t j, f = .response true w ∧ parseJson w = some data ∧
        replyText data "trim" = .ok t ∧ analyzeRecover t = some j ∧
        r.body = stringify j) ∧
    (∀ r, (part000Run env sdk e).outcome = .ok r → r.statusCode = 200 →
      (parseJson r.body).isSome = true ∧
      ∃ data t span j, sdk = .reply data ∧ replyText data "replace" = .ok t ∧
        braceSpan (part000Clean t).data = some span ∧ parseChars span = some j ∧
        r.body = stringify j) := by
  constructor
  · intro r h1 h2
    obtain ⟨w, data, t, j, ha, hb, hc, hd, he, hf⟩ := analyzeRun_200 env f e r h1 h2
    exact ⟨hf, w, data, t, j, ha, hb, hc, hd, he⟩
  · intro r h1 h2
    obtain ⟨data, t, span, j, ha, hb, hc, hd, he, hf⟩ := part000Run_200 env sdk e r h1 h2
    exact ⟨hf, data, t, span, j, ha, hb, hc, hd, he⟩

/-- Concrete refutation of claim C1 as stated: an upstream reply
`\x7b"ingredients": 5\x7d` is returned as a 200 whose `ingredients` field is
present and not an array. -/
theorem claim_C1_cex :
    (analyzeRun (some "k")
        (.response true (stringify (envelopeOf "\x7b\"ingredients\": 5\x7d")))
        ⟨"POST", "\x7b\"mode\":\"text\",\"content\":\"CeraVe\"\x7d"⟩).outcome =
      .ok ⟨200, okHeaders, "\x7b\"ingredients\":5\x7d"⟩ ∧
    resultShapeOk "\x7b\"ingredients\":5\x7d" = false := ⟨rfl, rfl⟩

/-- Witness for claim C1 at a concrete successful run. -/
theorem claim_C1_witness :
    (parseJson ("\x7b\"a\":1\x7d" : String)).isSome = true ∧
    ∃ w data t j,
      (FetchResult.response true (stringify (envelopeOf "\x7b\"a\":1\x7d"))) =
        .response true w ∧
      parseJson w = some data ∧ replyText data "trim" = .ok t ∧
      analyzeRecover t = some j ∧
      (⟨200, okHeaders, "\x7b\"a\":1\x7d"⟩ : HandlerResponse).body = stringify j :=
  (claim_C1 (some "k") (.response true (stringify (envelopeOf "\x7b\"a\":1\x7d")))
      (.reply (envelopeOf "\x7b\"a\":1\x7d"))
      ⟨"POST", "\x7b\"mode\":\"text\",\"content\":\"x\"\x7d"⟩).1
    ⟨200, okHeaders, "\x7b\"a\":1\x7d"⟩ (by rfl) rfl

/-- Claim C2 (corrected).  With the completion-service API key absent
(or empty) no network call is ever made, but only the fetch-based
handler returns the 5xx ConfigurationError for every POST.  The
SDK-based handler validates the request first: an unparseable body gets
a 400, a parsed non-null body with falsy/missing `mode` or `content`
gets a 400, a parsed non-null body with truthy `mode` and `content`
gets the 500 ConfigurationError, and a body parsing to JSON null
escapes as an unhandled TypeError. -/
theorem claim_C2 (env : Option String) (f : FetchResult) (sdk : SdkResult) (e : Event)
    (hkey : keyPresent env = false) (hm : e.httpMethod = "POST") :
    analyzeRun env f e =
      ⟨.ok ⟨500, [], errJson "ANTHROPIC_API_KEY not set in environment variables"⟩, 0, none⟩ ∧
    (part000Run env sdk e).calls = 0 ∧ (part000Run env sdk e).sent = none ∧
    (parseJson e.body = none →
      (part000Run env sdk e).outcome = .ok ⟨400, ctJson, errJson "Invalid JSON body"⟩) ∧
    (∀ bodyJson, parseJson e.body = some bodyJson → bodyJson ≠ .null →
      jsTruthyO (destructure bodyJson "mode") = true →
      jsTruthyO (destructure bodyJson "content") = true →
      (part000Run env sdk e).outcome = .ok ⟨500, ctJson, errJson "API key not configured"⟩) ∧
    (∀ bodyJson, parseJson e.body = some bodyJson → bodyJson ≠ .null →
      (jsTruthyO (destructure bodyJson "mode") = false ∨
       jsTruthyO (destructure bodyJson "content") = false) →
      (part000Run env sdk e).outcome =
        .ok ⟨400, ctJson, errJson "Missing required fields: mode, content"⟩) ∧
    (parseJson e.body = some .null →
      (part000Run env sdk e).outcome =
        .thrown "Cannot destructure property 'mode' of 'body' as it is null.") := by
  refine ⟨by simp [analyzeRun, hm, hkey], ?_, ?_, ?_, ?_, ?_, ?_⟩
  · unfold part000Run
    (repeat' split) <;> simp_all
  · unfold part000Run
    (repeat' split) <;> simp_all
  · intro hp
    unfold part000Run
    (repeat' split) <;> simp_all
  · intro bodyJson hp hnn htm htc
    obtain ⟨m, hdm⟩ : ∃ m, destructure bodyJson "mode" = some m := by
      cases hdm : destructure bodyJson "mode" with
      | none => rw [hdm] at htm; simp [jsTruthyO] at htm
      | some m => exact ⟨m, rfl⟩
    obtain ⟨c, hdc⟩ : ∃ c, destructure bodyJson "content" = some c := by
      cases hdc : destructure bodyJson "content" with
      | none => rw [hdc] at htc; simp [jsTruthyO] at htc
      | some c => exact ⟨c, rfl⟩
    rw [hdm] at htm
    rw [hdc] at htc
    simp only [jsTruthyO] at htm htc
    unfold part000Run
    (repeat' split) <;> simp_all
  · intro bodyJson hp hnn hfalsy
    unfold part000Run
    (repeat' split) <;> simp_all [jsTruthyO]
  · intro hp
    unfold part000Run
    (repeat' split) <;> simp_all

/-- Concrete refutation of claim C2 as stated: with the key absent and
an unparseable body, the SDK-based handler returns a 400, not a
5xx-equivalent ConfigurationError (it still makes no call). -/
theorem claim_C2_cex :
    (part000Run none (.reply (.obj [])) ⟨"POST", "zzz"⟩).outcome =
      .ok ⟨400, ctJson, errJson "Invalid JSON body"⟩ ∧
    (part000Run none (.reply (.obj [])) ⟨"POST", "zzz"⟩).calls = 0 := ⟨rfl, rfl⟩

/-- Witness for claim C2 at a concrete keyless request. -/
theorem claim_C2_witness :
    keyPresent none = false ∧
    analyzeRun none (.response true "") ⟨"POST", "\x7b\x7d"⟩ =
      ⟨.ok ⟨500, [], errJson "ANTHROPIC_API_KEY not set in environment variables"⟩, 0, none⟩ :=
  ⟨rfl, (claim_C2 none (.response true "") (.reply .null) ⟨"POST", "\x7b\x7d"⟩ rfl rfl).1⟩

/-- Claim C3 (corrected).  The fetch-based handler's text-mode
heuristic is computed on the TRIMMED content: the outbound user message
takes the product-name-oriented instruction path exactly when the
trimmed content has at most 3 comma/newline-delimited segments and
trimmed length under 80, and the raw-ingredient-list path otherwise.
The SDK-based handler has no such branching: its text mode always
emits one combined instruction delegating the distinction to the
model. -/
theorem claim_C3 (c : String) (mt : Option Json) :
    analyzeUserMessage (.str "text") (.str c) mt =
      some (.str (if splitSegments (jsTrim c) ≤ 3 ∧ (jsTrim c).data.length < 80
                  then productTemplate c else ingredientListTemplate c)) ∧
    part000UserMessage (.str "text") (.str c) mt = .str (part000TextTemplate c) := by
  constructor
  · have h1 : analyzeUserMessage (.str "text") (.str c) mt =
        some (.str (if isProductName c then productTemplate c else ingredientListTemplate c)) := rfl
    rw [h1]
    exact congrArg some (congrArg Json.str (if_congr (isProductName_iff c) rfl rfl))
  · rfl

/-- Concrete refutation of claim C3 as stated: the content "a,b,c\n"
has four comma/newline-delimited segments, yet the constructed message
follows the product-name-oriented path, because the code counts
segments of the trimmed content. -/
theorem claim_C3_cex :
    splitSegments "a,b,c\n" = 4 ∧
    analyzeUserMessage (.str "text") (.str "a,b,c\n") none =
      some (.str (productTemplate "a,b,c\n")) ∧
    productTemplate "a,b,c\n" ≠ ingredientListTemplate "a,b,c\n" := ⟨rfl, rfl, by decide⟩

/-- Claim C4 (corrected).  When the cleaned upstream text is not
recoverable as ANY JSON value, the fetch-based handler returns the 500
parse-failure body with a truncated raw prefix; the SDK-based handler
returns a 500 "Analysis failed" body whenever no brace-delimited span
parses; and neither handler ever makes a second completion call.  As
stated the claim fails, because a reply recoverable as a non-object
JSON value (e.g. `42`) is passed through by the fetch-based handler as
a 200 rather than rejected. -/
theorem claim_C4 (w t t2 : String) (data data2 : Json)
    (hw : parseJson w = some data) (hc : replyText data "trim" = .ok t)
    (hfail : analyzeRecover t = none)
    (hc2 : replyText data2 "replace" = .ok t2) (hfail2 : part000Recover t2 = none) :
    analyzeUpstream (.response true w) =
      ⟨500, [], stringify (.obj [("error", .str "Failed to parse AI response as JSON"),
                                 ("raw", .str ⟨(analyzeClean t).data.take 500⟩)])⟩ ∧
    (part000Upstream (.reply data2) =
       ⟨500, ctJson, failedBody "Could not extract JSON from Claude response"⟩ ∨
     part000Upstream (.reply data2) = ⟨500, ctJson, failedBody "Unexpected token in JSON"⟩) ∧
    (∀ env e, (analyzeRun env (.response true w) e).calls ≤ 1 ∧
              (part000Run env (.reply data2) e).calls ≤ 1) := by
  refine ⟨?_, ?_, fun env e => ⟨analyzeRun_calls_le env _ e, part000Run_calls_le env _ e⟩⟩
  · simp [analyzeUpstream, hw, hc, hfail]
  · unfold part000Upstream
    unfold part000Recover at hfail2
    simp only [hc2]
    rcases hbs : braceSpan (part000Clean t2).data with _ | span
    · left
      simp [hbs]
    · simp only [hbs] at hfail2 ⊢
      rcases hpc : parseChars span with _ | j
      · right
        simp [hpc]
      · simp [hpc] at hfail2

/-- Concrete refutation of claim C4 as stated: the upstream text `42`
is not recoverable as a JSON object, yet the fetch-based handler
returns a 200 with body `42` instead of a MalformedUpstreamResponse
error. -/
theorem claim_C4_cex :
    analyzeUpstream (.response true (stringify (envelopeOf "42"))) = ⟨200, okHeaders, "42"⟩ ∧
    isObjOpt (analyzeRecover "42") = false := ⟨rfl, rfl⟩

/-- Witness for claim C4 at a concrete unparseable reply. -/
theorem claim_C4_witness :
    analyzeRecover "hello" = none ∧
    analyzeUpstream (.response true (stringify (envelopeOf "hello"))) =
      ⟨500, [], stringify (.obj [("error", .str "Failed to parse AI response as JSON"),
                                 ("raw", .str ⟨(analyzeClean "hello").data.take 500⟩)])⟩ :=
  ⟨rfl, (claim_C4 (stringify (envelopeOf "hello")) "hello" "oops"
      (envelopeOf "hello") (envelopeOf "oops") rfl rfl rfl rfl rfl).1⟩

/-- Claim C5 (corrected).  For an upstream reply that is a JSON object
wrapped in triple-backtick fences bounding the whole reply — with a
`json` tag or no tag, and with no backtick inside the object's text —
both normalizers strip the fences, parse the enclosed object and
return exactly that parsed value (serialized) as the 200 body.  As
stated the claim fails for the SDK-based handler: its fence stripping
is global, so backticks inside the object's strings are removed too
and the returned object is not the enclosed one. -/
theorem claim_C5 (s : String) (j : Json) (tag : Bool)
    (hh : s.data.head? = some '\x7b') (hl : s.data.getLast? = some '\x7d')
    (hclean : ∀ c ∈ s.data, c ≠ '\x60') (hp : parseJson s = some j) :
    analyzeRecover (wrapFence tag s) = some j ∧
    part000Recover (wrapFence tag s) = some j ∧
    (∀ w, parseJson w = some (envelopeOf (wrapFence tag s)) →
      analyzeUpstream (.response true w) = ⟨200, okHeaders, stringify j⟩) ∧
    part000Upstream (.reply (envelopeOf (wrapFence tag s))) = ⟨200, ctJson, stringify j⟩ := by
  have hA : analyzeRecover (wrapFence tag s) = some j := by
    unfold analyzeRecover
    rw [analyzeClean_wrapped s tag hh hl]
    exact hp
  have hB : part000Recover (wrapFence tag s) = some j := by
    unfold part000Recover
    rw [part000Clean_wrapped s tag hh hl hclean, braceSpan_whole s.data hh hl]
    exact hp
  refine ⟨hA, hB, ?_, ?_⟩
  · intro w hw
    simp only [analyzeUpstream, hw, replyText_envelope, hA]
    exact if_pos trivial
  · have hp2 : parseChars s.data = some j := hp
    simp only [part000Upstream, replyText_envelope,
               part000Clean_wrapped s tag hh hl hclean, braceSpan_whole s.data hh hl, hp2]

/-- Concrete refutation of claim C5 as stated: a fenced reply whose
enclosed object contains a triple backtick inside a string is returned
MODIFIED by the SDK-based normalizer (the inner backticks are stripped
by the global replacement). -/
theorem claim_C5_cex :
    part000Upstream (.reply (envelopeOf "```json\n\x7b\"a\": \"```\"\x7d\n```")) =
      ⟨200, ctJson, "\x7b\"a\":\"\"\x7d"⟩ ∧
    "\x7b\"a\":\"\"\x7d" ≠ stringify (.obj [("a", .str "```")]) := ⟨rfl, by decide⟩

/-- Witness for claim C5 at a concrete fenced reply. -/
theorem claim_C5_witness :
    parseJson "\x7b\"a\":1\x7d" = some (.obj [("a", .num "1")]) ∧
    analyzeRecover (wrapFence true "\x7b\"a\":1\x7d") = some (.obj [("a", .num "1")]) :=
  ⟨rfl, (claim_C5 "\x7b\"a\":1\x7d" (.obj [("a", .num "1")]) true rfl rfl (by decide) rfl).1⟩

/-- Claim C6 (corrected).  For every POST whose parsed body is a JSON
value other than null with missing (or falsy/empty) `mode` or
`content`, both handlers return a 400 response with an `error` body and
make no completion call — for the fetch-based handler this needs the
API key configured, since it checks the key before parsing the body.
As stated the claim fails: a body parsing to JSON null (which has no
`mode`) crashes the handler with an unhandled TypeError instead of
returning a 4xx. -/
theorem claim_C6 (env : Option String) (f : FetchResult) (sdk : SdkResult) (e : Event)
    (bodyJson : Json) (hm : e.httpMethod = "POST") (hkey : keyPresent env = true)
    (hp : parseJson e.body = some bodyJson) (hnn : bodyJson ≠ .null)
    (hmiss : jsTruthyO (destructure bodyJson "mode") = false ∨
             jsTruthyO (destructure bodyJson "content") = false) :
    analyzeRun env f e = ⟨.ok ⟨400, [], errJson "Missing mode or content"⟩, 0, none⟩ ∧
    part000Run env sdk e =
      ⟨.ok ⟨400, ctJson, errJson "Missing required fields: mode, content"⟩, 0, none⟩ := by
  constructor
  · unfold analyzeRun
    (repeat' split) <;> simp_all [jsTruthyO]
  · unfold part000Run
    (repeat' split) <;> simp_all [jsTruthyO]

/-- Concrete refutation of claim C6 as stated: the body "null" parses
to JSON null, which is missing `mode` and `content`, yet the handler
throws (destructuring null) instead of returning a 4xx response. -/
theorem claim_C6_cex :
    parseJson "null" = some Json.null ∧
    (analyzeRun (some "k") (.response true "\x7b\x7d") ⟨"POST", "null"⟩).outcome =
      .thrown "Cannot destructure property 'mode' of 'body' as it is null." := ⟨rfl, rfl⟩

/-- Witness for claim C6 at a concrete incomplete request. -/
theorem claim_C6_witness :
    analyzeRun (some "k") (.response true "") ⟨"POST", "\x7b\x7d"⟩ =
      ⟨.ok ⟨400, [], errJson "Missing mode or content"⟩, 0, none⟩ :=
  (claim_C6 (some "k") (.response true "") (.reply .null) ⟨"POST", "\x7b\x7d"⟩ (.obj [])
      rfl rfl rfl (fun h => Json.noConfusion h) (Or.inl rfl)).1

/-- Claim C7 (corrected).  Every non-POST request gets a 405 response
from both handlers, but only the fetch-based handler's 405 body is the
JSON object with an `error` field; the SDK-based handler's 405 body is
the plain text "Method not allowed", not JSON. -/
theorem claim_C7 (env : Option String) (f : FetchResult) (sdk : SdkResult) (e : Event)
    (h : e.httpMethod ≠ "POST") :
    analyzeRun env f e = ⟨.ok ⟨405, [], errJson "Method not allowed"⟩, 0, none⟩ ∧
    part000Run env sdk e = ⟨.ok ⟨405, [], "Method not allowed"⟩, 0, none⟩ := by
  constructor <;> simp [analyzeRun, part000Run, h]

/-- Concrete refutation of claim C7 as stated: the SDK-based handler's
405 body is not valid JSON at all, hence not of the form
`\x7b "error": message \x7d`. -/
theorem claim_C7_cex :
    (part000Run (some "k") (.reply (.obj [])) ⟨"GET", ""⟩).outcome =
      .ok ⟨405, [], "Method not allowed"⟩ ∧
    parseJson "Method not allowed" = none := ⟨rfl, rfl⟩

/-- Witness for claim C7 at a concrete GET request. -/
theorem claim_C7_witness :
    analyzeRun (some "k") (.response true "") ⟨"GET", ""⟩ =
      ⟨.ok ⟨405, [], errJson "Method not allowed"⟩, 0, none⟩ :=
  (claim_C7 (some "k") (.response true "") (.reply .null) ⟨"GET", ""⟩ (by decide)).1

/-- Claim C8 (confirmed).  Both handlers are pure functions of the
inbound request, the configuration and the stubbed upstream behaviour
(the source reads no other state, clock or randomness), so two runs
with identical inputs produce identical — in particular byte-identical
— outputs. -/
theorem claim_C8 (env env2 : Option String) (f f2 : FetchResult) (sdk sdk2 : SdkResult)
    (e e2 : Event) (henv : env = env2) (hf : f = f2) (hsdk : sdk = sdk2) (he : e = e2) :
    analyzeRun env f e = analyzeRun env2 f2 e2 ∧
    part000Run env sdk e = part000Run env2 sdk2 e2 := by
  subst henv hf hsdk he
  exact ⟨rfl, rfl⟩

/-- Witness for claim C8 at concrete identical runs. -/
theorem claim_C8_witness :
    analyzeRun (some "k") (.throws "x") ⟨"POST", "\x7b\x7d"⟩ =
      analyzeRun (some "k") (.throws "x") ⟨"POST", "\x7b\x7d"⟩ :=
  (claim_C8 (some "k") (some "k") (.throws "x") (.throws "x") (.throws "y") (.throws "y")
      ⟨"POST", "\x7b\x7d"⟩ ⟨"POST", "\x7b\x7d"⟩ rfl rfl rfl rfl).1

/-- Claim C9 (corrected).  The two implementations are NOT
observationally equivalent (check order, 405 body and extraction
strategy differ).  What holds is a restricted equivalence: for every
valid POST request that reaches the upstream call in both handlers and
every upstream reply that is exactly a brace-delimited JSON text with
no backticks, both make exactly one call, return equal status codes,
and return byte-identical bodies on success. -/
theorem claim_C9 (env : Option String) (e : Event) (bj m c : Json) (t w : String)
    (hm : e.httpMethod = "POST") (hkey : keyPresent env = true)
    (hp : parseJson e.body = some bj) (hnn : bj ≠ .null)
    (hmode : destructure bj "mode" = some m) (hcont : destructure bj "content" = some c)
    (htm : jsTruthy m = true) (htc : jsTruthy c = true)
    (hcs : modeIsImage m = true ∨ ∃ s2, c = .str s2)
    (hh : t.data.head? = some '\x7b') (hl : t.data.getLast? = some '\x7d')
    (hclean : ∀ ch ∈ t.data, ch ≠ '\x60')
    (hw : parseJson w = some (envelopeOf t)) :
    ∃ r1 r2, (analyzeRun env (.response true w) e).outcome = .ok r1 ∧
      (part000Run env (.reply (envelopeOf t)) e).outcome = .ok r2 ∧
      (analyzeRun env (.response true w) e).calls = 1 ∧
      (part000Run env (.reply (envelopeOf t)) e).calls = 1 ∧
      r1.statusCode = r2.statusCode ∧
      (r1.statusCode = 200 → r1.body = r2.body) := by
  obtain ⟨msg, hmsg⟩ : ∃ msg, analyzeUserMessage m c (destructure bj "mimeType") = some msg := by
    rcases hcs with himg | ⟨s2, hs2⟩
    · exact ⟨_, by unfold analyzeUserMessage; rw [if_pos himg]⟩
    · subst hs2
      by_cases himg : modeIsImage m = true
      · exact ⟨_, by unfold analyzeUserMessage; rw [if_pos himg]⟩
      · exact ⟨_, by unfold analyzeUserMessage; rw [if_neg himg]⟩
  rw [analyzeRun_callPhase env _ e bj m c msg hm hkey hp hnn hmode hcont htm htc hmsg,
      part000Run_callPhase env _ e bj m c hm hkey hp hnn hmode hcont htm htc]
  refine ⟨analyzeUpstream (.response true w), part000Upstream (.reply (envelopeOf t)),
          rfl, rfl, rfl, rfl, ?_, ?_⟩
  all_goals (
    have hAclean : analyzeRecover t = parseJson t := by
      unfold analyzeRecover
      rw [analyzeClean_plain t hh hl]
    have hup1 : analyzeUpstream (.response true w) =
        (match parseJson t with
         | none =>
           ⟨500, [], stringify (.obj [("error", .str "Failed to parse AI response as JSON"),
                                      ("raw", .str ⟨(analyzeClean t).data.take 500⟩)])⟩
         | some parsed => (⟨200, okHeaders, stringify parsed⟩ : HandlerResponse)) := by
      simp only [analyzeUpstream, hw, replyText_envelope, hAclean]
      exact if_pos trivial
    have hup2 : part000Upstream (.reply (envelopeOf t)) =
        (match parseJson t with
         | none => ⟨500, ctJson, failedBody "Unexpected token in JSON"⟩
         | some analysis => (⟨200, ctJson, stringify analysis⟩ : HandlerResponse)) := by
      simp only [part000Upstream, replyText_envelope,
                 part000Clean_plain t hh hl hclean, braceSpan_whole t.data hh hl]
      rfl
    rw [hup1, hup2]
    rcases hpt : parseJson t with _ | jt <;> simp)

/-- Concrete refutation of claim C9 as stated: on the same inbound
request (missing API key, unparseable body) the two handlers answer in
different status classes — 500 versus 400. -/
theorem claim_C9_cex :
    (analyzeRun none (.response true "\x7b\x7d") ⟨"POST", "x"⟩).outcome =
      .ok ⟨500, [], errJson "ANTHROPIC_API_KEY not set in environment variables"⟩ ∧
    (part000Run none (.reply (.obj [])) ⟨"POST", "x"⟩).outcome =
      .ok ⟨400, ctJson, errJson "Invalid JSON body"⟩ := ⟨rfl, rfl⟩

/-- Witness for claim C9 at a concrete matched pair of runs. -/
theorem claim_C9_witness :
    ∃ r1 r2,
      (analyzeRun (some "k") (.response true (stringify (envelopeOf "\x7b\"a\":1\x7d")))
          ⟨"POST", "\x7b\"mode\":\"text\",\"content\":\"x\"\x7d"⟩).outcome = .ok r1 ∧
      (part000Run (some "k") (.reply (envelopeOf "\x7b\"a\":1\x7d"))
          ⟨"POST", "\x7b\"mode\":\"text\",\"content\":\"x\"\x7d"⟩).outcome = .ok r2 ∧
      (analyzeRun (some "k") (.response true (stringify (envelopeOf "\x7b\"a\":1\x7d")))
          ⟨"POST", "\x7b\"mode\":\"text\",\"content\":\"x\"\x7d"⟩).calls = 1 ∧
      (part000Run (some "k") (.reply (envelopeOf "\x7b\"a\":1\x7d"))
          ⟨"POST", "\x7b\"mode\":\"text\",\"content\":\"x\"\x7d"⟩).calls = 1 ∧
      r1.statusCode = r2.statusCode ∧
      (r1.statusCode = 200 → r1.body = r2.body) :=
  claim_C9 (some "k") ⟨"POST", "\x7b\"mode\":\"text\",\"content\":\"x\"\x7d"⟩
    (.obj [("mode", .str "text"), ("content", .str "x")]) (.str "text") (.str "x")
    "\x7b\"a\":1\x7d" (stringify (envelopeOf "\x7b\"a\":1\x7d"))
    rfl rfl rfl (fun h => Json.noConfusion h) rfl rfl rfl rfl
    (Or.inr ⟨"x", rfl⟩) rfl rfl (by decide) rfl

/-- Claim C10 (corrected).  Exceptions raised while calling the
service or reading/parsing its reply are caught and become 5xx
responses, and for every event whose parsed body is not JSON null and
whose truthy non-image `content` is a string, the handlers return a
response with status 200/400/405/500.  As stated the claim fails: the
handler is NOT total on every inbound event — a body parsing to null,
or a truthy non-string `content` in a non-image mode (fetch-based
handler), throws a TypeError outside the try block, which escapes to
the host. -/
theorem claim_C10 (env : Option String) (f : FetchResult) (sdk : SdkResult) (e : Event)
    (h1 : ∀ j, parseJson e.body = some j → j ≠ .null)
    (h2 : ∀ j m c, parseJson e.body = some j → destructure j "mode" = some m →
          destructure j "content" = some c → jsTruthy m = true → jsTruthy c = true →
          modeIsImage m = false → ∃ s, c = .str s) :
    (∃ r, (analyzeRun env f e).outcome = .ok r ∧
       (r.statusCode = 200 ∨ r.statusCode = 400 ∨ r.statusCode = 405 ∨ r.statusCode = 500)) ∧
    (∃ r, (part000Run env sdk e).outcome = .ok r ∧
       (r.statusCode = 200 ∨ r.statusCode = 400 ∨ r.statusCode = 405 ∨ r.statusCode = 500)) ∧
    (∀ msg, analyzeUpstream (.throws msg) = ⟨500, [], errJson msg⟩ ∧
            part000Upstream (.throws msg) = ⟨500, ctJson, failedBody msg⟩) :=
  ⟨analyzeRun_total env f e h1 h2, part000Run_total env sdk e h1, fun _ => ⟨rfl, rfl⟩⟩

/-- Concrete refutation of claim C10 as stated: a POST body with a
numeric `content` in text mode makes the fetch-based handler throw an
unhandled TypeError instead of returning a response. -/
theorem claim_C10_cex :
    (analyzeRun (some "k") (.response true "\x7b\x7d")
        ⟨"POST", "\x7b\"mode\":\"text\",\"content\":5\x7d"⟩).outcome =
      .thrown "content.trim is not a function" := rfl

/-- Witness for claim C10 at a concrete event with a transport failure. -/
theorem claim_C10_witness :
    ∃ r, (analyzeRun (some "k") (.throws "boom")
        ⟨"POST", "\x7b\"mode\":\"text\",\"content\":\"x\"\x7d"⟩).outcome = .ok r ∧
      (r.statusCode = 200 ∨ r.statusCode = 400 ∨ r.statusCode = 405 ∨ r.statusCode = 500) :=
  (claim_C10 (some "k") (.throws "boom") (.throws "b2")
      ⟨"POST", "\x7b\"mode\":\"text\",\"content\":\"x\"\x7d"⟩
      (by
        intro j h
        rw [show parseJson "\x7b\"mode\":\"text\",\"content\":\"x\"\x7d" =
              some (Json.obj [("mode", Json.str "text"), ("content", Json.str "x")]) from rfl] at h
        injection h with h2
        subst h2
        exact fun hc => Json.noConfusion hc)
      (by
        intro j m c hp hmode hcont htm htc himg
        rw [show parseJson "\x7b\"mode\":\"text\",\"content\":\"x\"\x7d" =
              some (Json.obj [("mode", Json.str "text"), ("content", Json.str "x")]) from rfl] at hp
        injection hp with h2
        subst h2
        rw [show destructure (Json.obj [("mode", Json.str "text"), ("content", Json.str "x")])
              "content" = some (Json.str "x") from rfl] at hcont
        injection hcont with h3
        exact ⟨"x", h3.symm⟩)).1

end SkinIQ
